import Mathlib

/-!
# Verification of the tenant-isolation / QBO import core

Shallow embedding, in Lean 4, of the core subsystems of the
multi-tenant SaaS backend (`backend/app`): the amount parser and the
import-run orchestrator (`app/services/qbo.py`), the tenant context
resolver (`app/core/tenant.py`), the row-visibility filter
(`app/core/access.py`), the import-run creation endpoint
(`app/api/v1/qbo_ingestion.py`), the background task
(`app/tasks/qbo_import.py`) and the OAuth state codec
(`QBOStateManager` in `app/services/qbo.py`).

General modelling conventions:
* Python strings are Lean `String` / `List Char`; byte strings are
  `List Nat` with every byte `< 256`; unicode code points are `List Nat`.
* Database session semantics of `get_tenant_db` / `get_async_db`
  (`app/core/database.py`): the body of a request/worker invocation runs
  inside one transaction; it commits on normal exit and rolls back when
  an exception propagates, so a propagating exception leaves the
  persisted state exactly as it was before the invocation.
* Timestamps (`datetime.utcnow`, `time.time`) are supplied by the
  environment; one invocation is modelled with a single clock value.
* External HTTP effects (token refresh, the trial-balance report call)
  are supplied by an explicit environment record, one outcome per call,
  exactly as the orchestrator consumes them.
-/

set_option autoImplicit false

namespace Saas

/-! ## Python `Decimal` values and the amount parser

Model of `_parse_amount` (`app/services/qbo.py` lines 182-191) and of
the fragment of `decimal.Decimal(str)` it relies on: sign, integer part,
fractional part, exponent, `NaN` / `Infinity` forms, with leading and
trailing whitespace and underscores removed (Python strips both before
parsing).  `InvalidOperation` is modelled as `none`. -/

/-- A Python `Decimal`: `num m e` denotes `m * 10 ^ e`; `nan` and
`inf` model the special values (their payloads are irrelevant here). -/
inductive PyDecimal where
  | num (mantissa : Int) (exp : Int)
  | nan
  | inf (negative : Bool)
  deriving Repr, DecidableEq

/-- ASCII whitespace stripped by Python `str.strip()`. -/
def isPyWs (c : Char) : Bool :=
  c == ' ' || c == '\t' || c == '\n' || c == '\x0d' || c == '\x0b' || c == '\x0c'

/-- Python `str.strip()` on a character list. -/
def pyStrip (s : List Char) : List Char :=
  ((s.dropWhile isPyWs).reverse.dropWhile isPyWs).reverse

def isDigitCh (c : Char) : Bool := decide ('0' ≤ c) && decide (c ≤ '9')

def digitsToNat (ds : List Char) : Nat :=
  ds.foldl (fun a c => a * 10 + (c.toNat - 48)) 0

/-- ASCII lower-casing (model of Python `str.lower()` on the ASCII
range, which is all the code feeds it). -/
def pyLowerChar (c : Char) : Char :=
  if 'A' ≤ c ∧ c ≤ 'Z' then Char.ofNat (c.toNat + 32) else c

def pyLower (s : List Char) : List Char := s.map pyLowerChar

/-- Parse of the numeric / special body of a decimal literal, after the
sign has been removed. -/
def pyDecimalBody? (negative : Bool) (s : List Char) : Option PyDecimal :=
  let low := pyLower s
  if low == "inf".data || low == "infinity".data then some (.inf negative)
  else if low.take 3 == "nan".data && (low.drop 3).all isDigitCh then some .nan
  else if low.take 4 == "snan".data && (low.drop 4).all isDigitCh then some .nan
  else
    let intDigits := s.takeWhile isDigitCh
    let rest := s.dropWhile isDigitCh
    let fracDigits := match rest with
      | '.' :: r => r.takeWhile isDigitCh
      | _ => []
    let rest2 := match rest with
      | '.' :: r => r.dropWhile isDigitCh
      | _ => rest
    if intDigits == [] && fracDigits == [] then none
    else
      let mantNat := digitsToNat (intDigits ++ fracDigits)
      let mant : Int := if negative then -(mantNat : Int) else (mantNat : Int)
      match rest2 with
      | [] => some (.num mant (-(fracDigits.length : Int)))
      | e :: r3 =>
        if e == 'e' || e == 'E' then
          let (expNeg, eds) := match r3 with
            | '+' :: r4 => (false, r4)
            | '-' :: r4 => (true, r4)
            | r4 => (false, r4)
          if eds != [] && eds.all isDigitCh then
            let ev : Int := if expNeg then -(digitsToNat eds : Int) else (digitsToNat eds : Int)
            some (.num mant (ev - (fracDigits.length : Int)))
          else none
        else none

/-- Model of `decimal.Decimal(str)` on the syntax the code can feed it:
whitespace is stripped, underscores removed, then an optionally signed
numeric or special literal is parsed; `none` models `InvalidOperation`. -/
def pyDecimal? (s : List Char) : Option PyDecimal :=
  let t := (pyStrip s).filter (· ≠ '_')
  match t with
  | '+' :: r => pyDecimalBody? false r
  | '-' :: r => pyDecimalBody? true r
  | r => pyDecimalBody? false r

/-- Rational value of a finite `PyDecimal` (`nan` / `inf` are given the
junk value `0`; no theorem relies on them). -/
def decVal : PyDecimal → ℚ
  | .num m e => (m : ℚ) * (10 : ℚ) ^ e
  | .nan => 0
  | .inf _ => 0

/-- `_parse_amount` (`app/services/qbo.py` lines 182-191): empty or
missing values give `Decimal("0")`; commas are removed and the result
stripped; a value wrapped in parentheses is rewritten to a leading
minus; anything `Decimal` rejects gives `Decimal("0")`. -/
def parse_amount (value : Option String) : PyDecimal :=
  match value with
  | none => .num 0 0
  | some v =>
    if v.data = [] then .num 0 0
    else
      let clean := pyStrip ((v.data).filter (· != ','))
      let clean2 :=
        if clean.head? == some '(' && clean.getLast? == some ')' then
          '-' :: (clean.drop 1).dropLast
        else clean
      match pyDecimal? clean2 with
      | some d => d
      | none => .num 0 0

/-! ## Data model of the import pipeline

Rows of the tables touched by `QBOImportService`
(`app/models/qbo_ingestion.py`, `app/models/entity.py`).  Identifiers
(UUID columns) are modelled as `String`; `DateTime` values as `Nat`;
`Date` values as `String` (the orchestrator only copies them around).
Row-level security is not modelled: every claim below concerns a single
tenant, and the worker session pins one `tenant_id` throughout. -/

structure ImportRunRow where
  id : String
  tenant_id : String
  entity_id : String
  tax_year : Int
  period_end_date : String
  status : String
  started_at : Option Nat
  finished_at : Option Nat
  error_text : Option String
  client_group_id : Option String
  client_group_tax_year_id : Option String
  triggered_by_user_id : Option String
  deriving Repr, DecidableEq

structure QBOConnectionRow where
  tenant_id : String
  entity_id : String
  realm_id : String
  access_token : String
  refresh_token : Option String
  token_expires_at : Option Nat
  deriving Repr, DecidableEq

structure SnapshotRow where
  id : String
  tenant_id : String
  entity_id : String
  import_run_id : String
  tax_year : Int
  period_end_date : String
  deriving Repr, DecidableEq

structure AccountRow where
  id : String
  tenant_id : String
  entity_id : String
  name : String
  external_account_id : Option String
  account_type : Option String
  deriving Repr, DecidableEq

structure LineRow where
  tenant_id : String
  snapshot_id : String
  account_id : String
  amount : PyDecimal
  deriving Repr, DecidableEq

/-- The tenant-visible persisted state touched by the worker. -/
structure TenantDB where
  runs : List ImportRunRow
  connections : List QBOConnectionRow
  snapshots : List SnapshotRow
  accounts : List AccountRow
  lines : List LineRow
  deriving Repr, DecidableEq

def TenantDB.empty : TenantDB := ⟨[], [], [], [], []⟩

/-! ## Trial-balance report normalization

Model of the row handling in `QBOClient.fetch_trial_balance`
(`app/services/qbo.py` lines 158-179): rows with fewer than two columns
are dropped, rows whose first column is empty or whose lower-cased name
starts with `"total"` are dropped, and the last column is parsed with
`_parse_amount`. -/

structure ColDatum where
  value : Option String
  deriving Repr, DecidableEq

structure ReportRow where
  colData : List ColDatum
  accountId : Option String
  accountType : Option String
  deriving Repr, DecidableEq

structure NormalizedLine where
  account_name : String
  amount : PyDecimal
  external_account_id : Option String
  account_type : Option String
  deriving Repr, DecidableEq

def normalizeReportRows (rows : List ReportRow) : List NormalizedLine :=
  rows.filterMap fun row =>
    if row.colData.length < 2 then none
    else
      match row.colData.head? with
      | none => none
      | some first =>
        match first.value with
        | none => none
        | some name =>
          if name.data = [] then none
          else if (pyLower name.data).take 5 == "total".data then none
          else
            match row.colData.getLast? with
            | none => none
            | some lastCol =>
              some ⟨name, parse_amount lastCol.value, row.accountId, row.accountType⟩

/-! ## Worker environment

Outcomes of the external calls an invocation of
`QBOImportService.process_run` can make, plus the clock and the fresh
primary keys (`uuid.uuid4` defaults) the session will allocate. -/

inductive FetchResult where
  /-- The trial-balance endpoint answered HTTP 429
  (`QBORateLimitExceeded`). -/
  | rateLimited
  /-- Any other HTTP / transport failure (`raise_for_status` etc.),
  carrying Python's exception text. -/
  | httpError (message : String)
  /-- A 2xx response whose parsed report rows are given. -/
  | success (rows : List ReportRow)
  deriving Repr, DecidableEq

structure TokenResponse where
  access_token : String
  refresh_token : Option String
  expires_in : Option Nat
  deriving Repr, DecidableEq

inductive RefreshResult where
  | failure (message : String)
  | success (tokens : TokenResponse)
  deriving Repr, DecidableEq

structure WorkerEnv where
  /-- The invocation's clock (`datetime.utcnow()`); one value per
  invocation. -/
  now : Nat
  fetch : FetchResult
  refresh : RefreshResult
  freshSnapshotId : String
  /-- Fresh account ids, indexed by creation order. -/
  freshAccountId : Nat → String

/-- Exceptions `process_run` can raise (values of `QBOError` /
`QBORateLimitExceeded` that propagate out of the session). -/
inductive QBOErr where
  /-- `QBOError("Import run not found")` -/
  | runNotFound
  /-- `QBOError("QBO connection for entity not found")` -/
  | connectionMissing
  /-- `QBOError("Missing refresh token")` -/
  | missingRefreshToken
  /-- Token-refresh HTTP failure propagated from `refresh_token`. -/
  | providerError (message : String)
  /-- `QBORateLimitExceeded` re-raised by `process_run`. -/
  | rateLimited
  deriving Repr, DecidableEq

/-! ## The orchestrator (`QBOImportService`, `app/services/qbo.py`) -/

def findRun (db : TenantDB) (run_id : String) : Option ImportRunRow :=
  db.runs.find? (fun r => r.id == run_id)

def findConnection (db : TenantDB) (entity_id tenant_id : String) :
    Option QBOConnectionRow :=
  db.connections.find? (fun c => c.entity_id == entity_id && c.tenant_id == tenant_id)

def updateRun (db : TenantDB) (r : ImportRunRow) : TenantDB :=
  { db with runs := db.runs.map (fun x => if x.id == r.id then r else x) }

def updateConnection (db : TenantDB) (c : QBOConnectionRow) : TenantDB :=
  { db with connections :=
      db.connections.map (fun x => if x.entity_id == c.entity_id then c else x) }

/-- `QBOImportService._refresh_tokens` (lines 233-242): requires a
refresh token, calls the provider, then overwrites the token fields;
`token_expires_at` is only moved when `expires_in` is truthy. -/
def refresh_tokens (env : WorkerEnv) (c : QBOConnectionRow) :
    Except QBOErr QBOConnectionRow :=
  match c.refresh_token with
  | none => .error .missingRefreshToken
  | some rt =>
    match env.refresh with
    | .failure m => .error (.providerError m)
    | .success tok =>
      .ok { c with
        access_token := tok.access_token
        refresh_token := some (tok.refresh_token.getD rt)
        token_expires_at :=
          match tok.expires_in with
          | some e => if e ≠ 0 then some (env.now + e) else c.token_expires_at
          | none => c.token_expires_at }

/-- `QBOImportService._get_or_create_account` (lines 282-313): look an
account up by `(entity, tenant)` plus external id when present, else
name; create it (fresh id from the environment) when absent.  Returns
the account and the updated table / fresh-id counter. -/
def get_or_create_account (env : WorkerEnv) (db : TenantDB) (counter : Nat)
    (entity_id tenant_id name : String)
    (external_account_id account_type : Option String) :
    AccountRow × TenantDB × Nat :=
  let found := db.accounts.find? fun a =>
    a.entity_id == entity_id && a.tenant_id == tenant_id &&
      (match external_account_id with
       | some ext =>
         if ext.data = [] then a.name == name
         else a.external_account_id == some ext
       | none => a.name == name)
  match found with
  | some a => (a, db, counter)
  | none =>
    let a : AccountRow :=
      ⟨env.freshAccountId counter, tenant_id, entity_id, name,
        external_account_id, account_type⟩
    (a, { db with accounts := db.accounts ++ [a] }, counter + 1)

/-- Cache key of the per-line loop in `_write_snapshot` (line 261):
`line_data.get("external_account_id") or line_data["account_name"]` —
the name is used whenever the external id is falsy. -/
def lineKey (l : NormalizedLine) : String :=
  match l.external_account_id with
  | some ext => if ext.data = [] then l.account_name else ext
  | none => l.account_name

/-- The per-line loop of `_write_snapshot` (lines 259-280): a session
cache keyed by `lineKey`, account resolution, and one
`TrialBalanceLine` insert per normalized report line. -/
def writeLines (env : WorkerEnv) (run : ImportRunRow) (snapshotId : String) :
    List NormalizedLine → TenantDB → List (String × AccountRow) → Nat → TenantDB
  | [], db, _, _ => db
  | l :: rest, db, cache, counter =>
    let step : AccountRow × TenantDB × Nat × List (String × AccountRow) :=
      match cache.find? (fun kv => kv.fst == lineKey l) with
      | some kv => (kv.snd, db, counter, cache)
      | none =>
        let r := get_or_create_account env db counter run.entity_id run.tenant_id
          l.account_name l.external_account_id l.account_type
        (r.1, r.2.1, r.2.2, cache ++ [(lineKey l, r.1)])
    let db2 := { step.2.1 with lines :=
      step.2.1.lines ++ [⟨run.tenant_id, snapshotId, step.1.id, l.amount⟩] }
    writeLines env run snapshotId rest db2 step.2.2.2 step.2.2.1

/-- `QBOImportService._write_snapshot` (lines 244-280) after a
successful fetch: always insert one fresh `TrialBalanceSnapshot` for
the executing run, then the lines. -/
def write_snapshot (env : WorkerEnv) (db : TenantDB) (run : ImportRunRow)
    (rows : List ReportRow) : TenantDB :=
  let snapshot : SnapshotRow :=
    ⟨env.freshSnapshotId, run.tenant_id, run.entity_id, run.id,
      run.tax_year, run.period_end_date⟩
  let db1 := { db with snapshots := db.snapshots ++ [snapshot] }
  writeLines env run snapshot.id (normalizeReportRows rows) db1 [] 0

/-- The conditional token refresh in `process_run` (lines 217-218):
refresh only when an expiry is recorded and it lies in the past. -/
def maybeRefresh (env : WorkerEnv) (conn : QBOConnectionRow) :
    Except QBOErr QBOConnectionRow :=
  match conn.token_expires_at with
  | some t => if t < env.now then refresh_tokens env conn else .ok conn
  | none => .ok conn

/-- The body of `QBOImportService.process_run` (lines 197-231) inside
the `get_tenant_db` session: `.ok db` is the session state at normal
exit (to be committed), `.error e` an exception propagating out of the
session (to be rolled back). -/
def processRunSession (env : WorkerEnv) (db : TenantDB)
    (run_id tenant_id : String) : Except QBOErr TenantDB :=
  match findRun db run_id with
  | none => .error .runNotFound
  | some run =>
    let run1 := { run with
      status := "running", started_at := some env.now, finished_at := none }
    let db1 := updateRun db run1
    match findConnection db1 run.entity_id tenant_id with
    | none => .error .connectionMissing
    | some conn =>
      match maybeRefresh env conn with
      | .error e => .error e
      | .ok conn1 =>
        let db2 := updateConnection db1 conn1
        match env.fetch with
        | .rateLimited => .error .rateLimited
        | .httpError m =>
          let run2 := { run1 with
            status := "failed", error_text := some m, finished_at := some env.now }
          .ok (updateRun db2 run2)
        | .success rows =>
          let db3 := write_snapshot env db2 run1 rows
          let run2 := { run1 with
            status := "success", finished_at := some env.now, error_text := none }
          .ok (updateRun db3 run2)

/-- `QBOImportService.process_run` with the transaction semantics of
`get_tenant_db` (`app/core/database.py` lines 179-204): commit on
normal exit, roll back (state unchanged) when an exception propagates.
The second component is the invocation's outcome as seen by the
caller. -/
def process_run (env : WorkerEnv) (db : TenantDB) (run_id tenant_id : String) :
    TenantDB × Except QBOErr Unit :=
  match processRunSession env db run_id tenant_id with
  | .ok db1 => (db1, .ok ())
  | .error e => (db, .error e)

/-- Outcome of one Celery task invocation
(`process_qbo_import_run_task`, `app/tasks/qbo_import.py`). -/
inductive TaskOutcome where
  /-- `process_run` returned normally. -/
  | completed
  /-- `QBORateLimitExceeded` was caught and `self.retry` rescheduled the
  task with its retry delay. -/
  | retried (e : QBOErr)
  /-- Any other exception propagated: the task errors out and is not
  retried. -/
  | errored (e : QBOErr)
  deriving Repr, DecidableEq

/-- `process_qbo_import_run_task` (`app/tasks/qbo_import.py` lines
12-22): run `process_run`; only `QBORateLimitExceeded` is caught and
turned into a retry. -/
def process_qbo_import_run_task (env : WorkerEnv) (db : TenantDB)
    (run_id tenant_id : String) : TenantDB × TaskOutcome :=
  match process_run env db run_id tenant_id with
  | (db1, .ok ()) => (db1, .completed)
  | (db1, .error .rateLimited) => (db1, .retried .rateLimited)
  | (db1, .error e) => (db1, .errored e)

/-- Persisted status of a run, by id. -/
def runStatus (db : TenantDB) (run_id : String) : Option String :=
  (findRun db run_id).map (fun r => r.status)

/-- Persisted error text of a run, by id. -/
def runErrorText (db : TenantDB) (run_id : String) : Option (Option String) :=
  (findRun db run_id).map (fun r => r.error_text)

/-! ## SHA-256 and HMAC-SHA256

Byte-level model of `hashlib.sha256` / `hmac.new(..., sha256)` used by
`QBOStateManager._signature`.  Bytes are `Nat`s below 256; 32-bit words
are `Nat`s reduced mod `2 ^ 32`. -/

def w32 (n : Nat) : Nat := n % 4294967296

def rotr32 (n x : Nat) : Nat := w32 ((x >>> n) ||| (x <<< (32 - n)))

def shaCh (x y z : Nat) : Nat := (x &&& y) ^^^ ((4294967295 - x) &&& z)

def shaMaj (x y z : Nat) : Nat := (x &&& y) ^^^ (x &&& z) ^^^ (y &&& z)

def bigSigma0 (x : Nat) : Nat := rotr32 2 x ^^^ rotr32 13 x ^^^ rotr32 22 x

def bigSigma1 (x : Nat) : Nat := rotr32 6 x ^^^ rotr32 11 x ^^^ rotr32 25 x

def smallSigma0 (x : Nat) : Nat := rotr32 7 x ^^^ rotr32 18 x ^^^ (x >>> 3)

def smallSigma1 (x : Nat) : Nat := rotr32 17 x ^^^ rotr32 19 x ^^^ (x >>> 10)

def shaK : List Nat :=
  [1116352408, 1899447441, 3049323471, 3921009573, 961987163, 1508970993,
   2453635748, 2870763221, 3624381080, 310598401, 607225278, 1426881987,
   1925078388, 2162078206, 2614888103, 3248222580, 3835390401, 4022224774,
   264347078, 604807628, 770255983, 1249150122, 1555081692, 1996064986,
   2554220882, 2821834349, 2952996808, 3210313671, 3336571891, 3584528711,
   113926993, 338241895, 666307205, 773529912, 1294757372, 1396182291,
   1695183700, 1986661051, 2177026350, 2456956037, 2730485921, 2820302411,
   3259730800, 3345764771, 3516065817, 3600352804, 4094571909, 275423344,
   430227734, 506948616, 659060556, 883997877, 958139571, 1322822218,
   1537002063, 1747873779, 1955562222, 2024104815, 2227730452, 2361852424,
   2428436474, 2756734187, 3204031479, 3329325298]

structure Sha256State where
  a : Nat
  b : Nat
  c : Nat
  d : Nat
  e : Nat
  f : Nat
  g : Nat
  hh : Nat
  deriving Repr, DecidableEq

def shaInit : Sha256State :=
  ⟨1779033703, 3144134277, 1013904242, 2773480762,
   1359893119, 2600822924, 528734635, 1541459225⟩

def shaRound (st : Sha256State) (kw : Nat × Nat) : Sha256State :=
  let t1 := w32 (st.hh + bigSigma1 st.e + shaCh st.e st.f st.g + kw.1 + kw.2)
  let t2 := w32 (bigSigma0 st.a + shaMaj st.a st.b st.c)
  ⟨w32 (t1 + t2), st.a, st.b, st.c, w32 (st.d + t1), st.e, st.f, st.g⟩

def shaScheduleStep (w : List Nat) : List Nat :=
  w ++ [w32 (smallSigma1 (w.getD (w.length - 2) 0) + w.getD (w.length - 7) 0 +
    smallSigma0 (w.getD (w.length - 15) 0) + w.getD (w.length - 16) 0)]

def shaSchedule (block : List Nat) : List Nat :=
  (List.range 48).foldl (fun w _ => shaScheduleStep w) block

def shaAdd (s t : Sha256State) : Sha256State :=
  ⟨w32 (s.a + t.a), w32 (s.b + t.b), w32 (s.c + t.c), w32 (s.d + t.d),
   w32 (s.e + t.e), w32 (s.f + t.f), w32 (s.g + t.g), w32 (s.hh + t.hh)⟩

def shaCompress (st : Sha256State) (block : List Nat) : Sha256State :=
  shaAdd st ((shaK.zip (shaSchedule block)).foldl shaRound st)

def bytesToWords : List Nat → List Nat
  | b0 :: b1 :: b2 :: b3 :: rest =>
    (((b0 * 256 + b1) * 256 + b2) * 256 + b3) :: bytesToWords rest
  | _ => []

def wordsToBlocks (fuel : Nat) (ws : List Nat) : List (List Nat) :=
  match fuel, ws with
  | 0, _ => []
  | _, [] => []
  | fuel + 1, ws => ws.take 16 :: wordsToBlocks fuel (ws.drop 16)

def wordBytes (w : Nat) : List Nat :=
  [w / 16777216 % 256, w / 65536 % 256, w / 256 % 256, w % 256]

def shaStateBytes (s : Sha256State) : List Nat :=
  wordBytes s.a ++ wordBytes s.b ++ wordBytes s.c ++ wordBytes s.d ++
  wordBytes s.e ++ wordBytes s.f ++ wordBytes s.g ++ wordBytes s.hh

def shaPad (msg : List Nat) : List Nat :=
  let padZeros := (64 - (msg.length + 9) % 64) % 64
  msg ++ [128] ++ List.replicate padZeros 0 ++
    [msg.length * 8 / 72057594037927936 % 256,
     msg.length * 8 / 281474976710656 % 256,
     msg.length * 8 / 1099511627776 % 256,
     msg.length * 8 / 4294967296 % 256,
     msg.length * 8 / 16777216 % 256,
     msg.length * 8 / 65536 % 256,
     msg.length * 8 / 256 % 256,
     msg.length * 8 % 256]

def sha256 (msg : List Nat) : List Nat :=
  let padded := shaPad msg
  let blocks := wordsToBlocks padded.length (bytesToWords padded)
  shaStateBytes (blocks.foldl shaCompress shaInit)

/-- `hmac.new(key, msg, hashlib.sha256)` with the standard 64-byte
block size. -/
def hmacSha256 (key msg : List Nat) : List Nat :=
  let k0 := if key.length > 64 then sha256 key else key
  let kpad := k0 ++ List.replicate (64 - k0.length) 0
  sha256 ((kpad.map (fun b => b ^^^ 92)) ++
    sha256 ((kpad.map (fun b => b ^^^ 54)) ++ msg))

/-- One lowercase hex digit, as a code point. -/
def hexDigit (n : Nat) : Nat := if n < 10 then 48 + n else 87 + n

/-- `.hexdigest()`: lowercase hex code points of a byte string. -/
def bytesToHexCps (bs : List Nat) : List Nat :=
  bs.foldr (fun b acc => hexDigit (b / 16) :: hexDigit (b % 16) :: acc) []

/-! ## base64url (`base64.urlsafe_b64encode` / `urlsafe_b64decode`)

Encoding is the standard chunked alphabet map with `=` padding.
Decoding models CPython's non-validating path: characters outside the
(url-safe or standard) alphabet and `=` are discarded, the remaining
length must be a multiple of four (`binascii.Error: Incorrect padding`
otherwise, a `ValueError`), data stops at the first `=`, and a single
leftover data character is an error.  Exotic placements of `=` in
legacy mode are approximated by the data-stops-at-first-`=` rule. -/

def b64Char (v : Nat) : Nat :=
  if v < 26 then 65 + v
  else if v < 52 then 97 + (v - 26)
  else if v < 62 then 48 + (v - 52)
  else if v = 62 then 45
  else 95

def b64Val? (c : Nat) : Option Nat :=
  if 65 ≤ c ∧ c ≤ 90 then some (c - 65)
  else if 97 ≤ c ∧ c ≤ 122 then some (c - 97 + 26)
  else if 48 ≤ c ∧ c ≤ 57 then some (c - 48 + 52)
  else if c = 43 ∨ c = 45 then some 62
  else if c = 47 ∨ c = 95 then some 63
  else none

def b64encode : List Nat → List Nat
  | [] => []
  | [b0] => [b64Char (b0 / 4), b64Char (b0 % 4 * 16), 61, 61]
  | [b0, b1] =>
    [b64Char (b0 / 4), b64Char (b0 % 4 * 16 + b1 / 16), b64Char (b1 % 16 * 4), 61]
  | b0 :: b1 :: b2 :: rest =>
    b64Char (b0 / 4) :: b64Char (b0 % 4 * 16 + b1 / 16) ::
      b64Char (b1 % 16 * 4 + b2 / 64) :: b64Char (b2 % 64) :: b64encode rest

def b64decodeVals : List Nat → Option (List Nat)
  | [] => some []
  | [_] => none
  | [v0, v1] => some [v0 * 4 + v1 / 16]
  | [v0, v1, v2] => some [v0 * 4 + v1 / 16, v1 % 16 * 16 + v2 / 4]
  | v0 :: v1 :: v2 :: v3 :: rest =>
    (b64decodeVals rest).map fun tail =>
      (v0 * 4 + v1 / 16) :: (v1 % 16 * 16 + v2 / 4) :: (v2 % 4 * 64 + v3) :: tail

def b64decode (input : List Nat) : Option (List Nat) :=
  let relevant := input.filter fun c => (b64Val? c).isSome || c == 61
  if relevant.length % 4 ≠ 0 then none
  else b64decodeVals ((relevant.takeWhile fun c => c ≠ 61).filterMap b64Val?)

/-! ## UTF-8 (`bytes.decode()` / `str.encode()`) -/

def utf8EncodeChar (c : Nat) : List Nat :=
  if c < 128 then [c]
  else if c < 2048 then [192 + c / 64, 128 + c % 64]
  else if c < 65536 then [224 + c / 4096, 128 + c / 64 % 64, 128 + c % 64]
  else [240 + c / 262144, 128 + c / 4096 % 64, 128 + c / 64 % 64, 128 + c % 64]

def utf8Encode (cps : List Nat) : List Nat :=
  cps.foldr (fun c acc => utf8EncodeChar c ++ acc) []

def utf8Cont (b : Nat) : Bool := decide (128 ≤ b) && decide (b < 192)

/-- One non-ASCII UTF-8 sequence: the decoded code point and the
remaining bytes; `none` on continuation errors, overlong forms,
surrogates and out-of-range values, as `bytes.decode()` rejects them. -/
def utf8More (b : Nat) (rest : List Nat) : Option (Nat × List Nat) :=
  if b < 194 then none
  else if b < 224 then
    match rest with
    | b1 :: rest2 =>
      if utf8Cont b1 then some ((b - 192) * 64 + (b1 - 128), rest2) else none
    | [] => none
  else if b < 240 then
    match rest with
    | b1 :: b2 :: rest3 =>
      if utf8Cont b1 && utf8Cont b2 then
        let cp := (b - 224) * 4096 + (b1 - 128) * 64 + (b2 - 128)
        if cp < 2048 then none
        else if 55296 ≤ cp ∧ cp < 57344 then none
        else some (cp, rest3)
      else none
    | _ => none
  else if b < 245 then
    match rest with
    | b1 :: b2 :: b3 :: rest4 =>
      if utf8Cont b1 && utf8Cont b2 && utf8Cont b3 then
        let cp := (b - 240) * 262144 + (b1 - 128) * 4096 +
          (b2 - 128) * 64 + (b3 - 128)
        if cp < 65536 then none
        else if cp ≥ 1114112 then none
        else some (cp, rest4)
      else none
    | _ => none
  else none

/-- Strict UTF-8 decoding, fuel-driven (every step consumes at least
one byte, so the input length is always enough fuel). -/
def utf8DecodeAux : Nat → List Nat → Option (List Nat)
  | _, [] => some []
  | 0, _ :: _ => none
  | fuel + 1, b :: rest =>
    if b < 128 then (utf8DecodeAux fuel rest).map (fun t => b :: t)
    else
      match utf8More b rest with
      | none => none
      | some (cp, rest2) => (utf8DecodeAux fuel rest2).map (fun t => cp :: t)

/-- `bytes.decode()`. -/
def utf8Decode (bs : List Nat) : Option (List Nat) := utf8DecodeAux bs.length bs

/-! ## JSON (`json.dumps` / `json.loads`)

Parsed values.  Integral number literals become Python `int`
(`jint`); literals with a fraction or exponent, and the non-standard
`NaN` / `Infinity` constants, become Python floats, modelled as `jnum`
carrying the literal text (model boundary: Python's float formatting
normalizes such values, but no token produced by `encode` contains
one).  Strings and object keys are code-point lists; objects follow
Python dict semantics (duplicate keys overwrite in place). -/

inductive JVal where
  | jnull
  | jbool (b : Bool)
  | jint (n : Int)
  | jnum (raw : List Nat)
  | jstr (s : List Nat)
  | jarr (elems : List JVal)
  | jobj (fields : List (List Nat × JVal))

def jsonWs (c : Nat) : Bool := c == 32 || c == 9 || c == 10 || c == 13

def skipWs : List Nat → List Nat
  | c :: rest => if jsonWs c then skipWs rest else c :: rest
  | [] => []

def hexVal? (c : Nat) : Option Nat :=
  if 48 ≤ c ∧ c ≤ 57 then some (c - 48)
  else if 97 ≤ c ∧ c ≤ 102 then some (c - 97 + 10)
  else if 65 ≤ c ∧ c ≤ 70 then some (c - 65 + 10)
  else none

/-- One string escape after the backslash: the UTF-16 unit and the
remaining input (`none` for invalid escapes). -/
def parseEscape (e : Nat) (r : List Nat) : Option (Nat × List Nat) :=
  if e = 34 then some (34, r)
  else if e = 92 then some (92, r)
  else if e = 47 then some (47, r)
  else if e = 98 then some (8, r)
  else if e = 102 then some (12, r)
  else if e = 110 then some (10, r)
  else if e = 114 then some (13, r)
  else if e = 116 then some (9, r)
  else if e = 117 then
    match r with
    | c1 :: c2 :: c3 :: c4 :: r2 =>
      match hexVal? c1, hexVal? c2, hexVal? c3, hexVal? c4 with
      | some h1, some h2, some h3, some h4 =>
        some ((((h1 * 16 + h2) * 16 + h3) * 16 + h4), r2)
      | _, _, _, _ => none
    | _ => none
  else none

/-- String-body scanner: UTF-16 escape units, stopping at the closing
quote; literal control characters and bad escapes are rejected (strict
`json.loads` behaviour).  Fuel-driven; every step consumes at least one
character. -/
def parseStringAux : Nat → List Nat → Option (List Nat × List Nat)
  | _, [] => none
  | 0, _ :: _ => none
  | fuel + 1, c :: rest =>
    if c = 34 then some ([], rest)
    else if c = 92 then
      match rest with
      | [] => none
      | e :: r =>
        match parseEscape e r with
        | none => none
        | some (u, r2) => (parseStringAux fuel r2).map fun p => (u :: p.1, p.2)
    else if c < 32 then none
    else (parseStringAux fuel rest).map fun p => (c :: p.1, p.2)

def parseStringUnits (l : List Nat) : Option (List Nat × List Nat) :=
  parseStringAux l.length l

/-- Combine adjacent `\uXXXX` surrogate pairs, as the scanner does;
decoded byte input can never contain raw surrogates, so all surrogate
units stem from escapes. -/
def combineSurrogates : List Nat → List Nat
  | h :: l :: rest =>
    if 55296 ≤ h ∧ h < 56320 ∧ 56320 ≤ l ∧ l < 57344 then
      (65536 + (h - 55296) * 1024 + (l - 56320)) :: combineSurrogates rest
    else h :: combineSurrogates (l :: rest)
  | l => l

def isDigitByte (c : Nat) : Bool := decide (48 ≤ c) && decide (c ≤ 57)

def digitsVal (ds : List Nat) : Nat :=
  ds.foldl (fun a d => a * 10 + (d - 48)) 0

/-- JSON number grammar (with the non-standard constants handled at the
value level): optional minus, integer part without leading zeros,
optional fraction and exponent.  Pure-integer literals give `jint`,
everything else `jnum`. -/
def parseNumber (input : List Nat) : Option (JVal × List Nat) :=
  let neg := input.headD 0 = 45
  let afterSign := if neg then input.tail else input
  let intDigits := afterSign.takeWhile isDigitByte
  let afterInt := afterSign.dropWhile isDigitByte
  if intDigits = [] then none
  else if intDigits.length > 1 ∧ intDigits.headD 0 = 48 then none
  else
    let hasDot := afterInt.headD 0 = 46
    let fracDigits := if hasDot then afterInt.tail.takeWhile isDigitByte else []
    if afterInt ≠ [] ∧ afterInt.headD 0 = 46 ∧ fracDigits = [] then none
    else
      let afterFrac := if hasDot then afterInt.tail.dropWhile isDigitByte
        else afterInt
      let expLen : Option Nat :=
        if afterFrac.headD 0 = 101 ∨ afterFrac.headD 0 = 69 then
          let signed := afterFrac.tail.headD 0 = 43 ∨ afterFrac.tail.headD 0 = 45
          let expTail := if signed then afterFrac.tail.tail else afterFrac.tail
          if expTail.takeWhile isDigitByte = [] then none
          else some ((if signed then 2 else 1) +
            (expTail.takeWhile isDigitByte).length)
        else some 0
      match expLen with
      | none => none
      | some el =>
        let hasExp := el ≠ 0
        let hasFrac := fracDigits ≠ [] ∨ (afterInt.headD 0 = 46 ∧ afterInt ≠ [])
        let consumed := (if neg then 1 else 0) + intDigits.length +
          (if hasFrac then 1 + fracDigits.length else 0) + el
        if hasFrac ∨ hasExp then
          some (.jnum (input.take consumed), input.drop consumed)
        else
          let v : Int := (digitsVal intDigits : Int)
          some (.jint (if neg then -v else v), input.drop consumed)

/-- Python `dict` insertion: overwrite in place, else append. -/
def dictInsert (fields : List (List Nat × JVal)) (k : List Nat) (v : JVal) :
    List (List Nat × JVal) :=
  match fields with
  | [] => [(k, v)]
  | (k0, v0) :: rest =>
    if k0 = k then (k0, v) :: rest else (k0, v0) :: dictInsert rest k v

mutual

/-- Fuel-driven JSON value parser (the fuel only bounds recursion
depth across containers and members; `json_loads` supplies more than
the input length, which always suffices). -/
def parseVal : Nat → List Nat → Option (JVal × List Nat)
  | 0, _ => none
  | fuel + 1, input =>
    match skipWs input with
    | [] => none
    | c :: rest =>
      if c = 34 then
        (parseStringUnits rest).map fun p => (.jstr (combineSurrogates p.1), p.2)
      else if c = 123 then
        (match skipWs rest with
         | 125 :: r => some (.jobj [], r)
         | other => (parseMembers fuel other []).map fun p => (.jobj p.1, p.2))
      else if c = 91 then
        (match skipWs rest with
         | 93 :: r => some (.jarr [], r)
         | other => (parseElems fuel other []).map fun p => (.jarr p.1, p.2))
      else if (c :: rest).take 4 = [110, 117, 108, 108] then
        some (.jnull, (c :: rest).drop 4)
      else if (c :: rest).take 4 = [116, 114, 117, 101] then
        some (.jbool true, (c :: rest).drop 4)
      else if (c :: rest).take 5 = [102, 97, 108, 115, 101] then
        some (.jbool false, (c :: rest).drop 5)
      else if (c :: rest).take 3 = [78, 97, 78] then
        some (.jnum [78, 97, 78], (c :: rest).drop 3)
      else if (c :: rest).take 8 = [73, 110, 102, 105, 110, 105, 116, 121] then
        some (.jnum [73, 110, 102, 105, 110, 105, 116, 121], (c :: rest).drop 8)
      else if (c :: rest).take 9 = [45, 73, 110, 102, 105, 110, 105, 116, 121] then
        some (.jnum [45, 73, 110, 102, 105, 110, 105, 116, 121],
          (c :: rest).drop 9)
      else parseNumber (c :: rest)

/-- Object members after the opening brace (first member expected). -/
def parseMembers : Nat → List Nat → List (List Nat × JVal) →
    Option (List (List Nat × JVal) × List Nat)
  | 0, _, _ => none
  | fuel + 1, input, acc =>
    match input with
    | 34 :: rest =>
      match parseStringUnits rest with
      | none => none
      | some (u, r1) =>
        match skipWs r1 with
        | 58 :: r2 =>
          match parseVal fuel r2 with
          | none => none
          | some (v, r3) =>
            let acc1 := dictInsert acc (combineSurrogates u) v
            match skipWs r3 with
            | 44 :: r4 => parseMembers fuel (skipWs r4) acc1
            | 125 :: r4 => some (acc1, r4)
            | _ => none
        | _ => none
    | _ => none

/-- Array elements after the opening bracket (first element
expected). -/
def parseElems : Nat → List Nat → List JVal → Option (List JVal × List Nat)
  | 0, _, _ => none
  | fuel + 1, input, acc =>
    match parseVal fuel input with
    | none => none
    | some (v, r1) =>
      match skipWs r1 with
      | 44 :: r2 => parseElems fuel r2 (acc ++ [v])
      | 93 :: r2 => some (acc ++ [v], r2)
      | _ => none

end

/-- `json.loads` on code points: one value, then only whitespace. -/
def json_loads (cps : List Nat) : Option JVal :=
  match parseVal (cps.length + 1) cps with
  | some (v, rest) => if skipWs rest = [] then some v else none
  | none => none

/-! ## The serializer side of `json.dumps`

Only the shape `encode` produces is needed: a non-empty object whose
values are strings and ints, with the default separators
`", "` / `": "` and `ensure_ascii=True` escaping. -/

def hex4 (n : Nat) : List Nat :=
  [hexDigit (n / 4096 % 16), hexDigit (n / 256 % 16),
   hexDigit (n / 16 % 16), hexDigit (n % 16)]

/-- `ensure_ascii` escaping of one code point: `\"`, `\\`, the short
control escapes, `\uXXXX` for other controls and all non-ASCII, with a
surrogate pair beyond the BMP; printable ASCII is kept. -/
def jsonEscapeChar (c : Nat) : List Nat :=
  if c = 34 then [92, 34]
  else if c = 92 then [92, 92]
  else if c = 8 then [92, 98]
  else if c = 9 then [92, 116]
  else if c = 10 then [92, 110]
  else if c = 12 then [92, 102]
  else if c = 13 then [92, 114]
  else if c < 32 then 92 :: 117 :: hex4 c
  else if c ≤ 126 then [c]
  else if c < 65536 then 92 :: 117 :: hex4 c
  else 92 :: 117 :: hex4 (55296 + (c - 65536) / 1024) ++
    (92 :: 117 :: hex4 (56320 + (c - 65536) % 1024))

/-- The escaped body of a JSON string literal. -/
def escBody (s : List Nat) : List Nat :=
  s.foldr (fun c acc => jsonEscapeChar c ++ acc) []

def serStr (s : List Nat) : List Nat := 34 :: escBody s ++ [34]

/-- The UTF-16 escape units the scanner recovers from `escBody s`. -/
def escUnits (c : Nat) : List Nat :=
  if c < 65536 then [c]
  else [55296 + (c - 65536) / 1024, 56320 + (c - 65536) % 1024]

def unitsOf (s : List Nat) : List Nat :=
  s.foldr (fun c acc => escUnits c ++ acc) []

/-- Code points representable in a Python `str` built from decoded
UTF-8 input: valid scalars, no surrogates. -/
def ScalarCps (s : List Nat) : Prop :=
  ∀ c ∈ s, c < 1114112 ∧ ¬ (55296 ≤ c ∧ c < 57344)

/-- The payload values `encode` serializes: strings of scalars, or
ints. -/
def GoodVal : JVal → Prop
  | .jstr s => ScalarCps s
  | .jint _ => True
  | _ => False

/-- Decimal code points of a natural number (`str(n)`). -/
def natDigitCps (n : Nat) : List Nat :=
  if n = 0 then [48] else (Nat.digits 10 n).reverse.map (fun d => d + 48)

/-- `str(n)` for a Python int. -/
def serInt (n : Int) : List Nat :=
  if n < 0 then 45 :: natDigitCps n.natAbs else natDigitCps n.natAbs

/-- Serialization of the scalar payload values `encode` produces
(strings and ints; other shapes never occur in its payload). -/
def serScalar : JVal → List Nat
  | .jstr s => serStr s
  | .jint n => serInt n
  | .jbool true => [116, 114, 117, 101]
  | .jbool false => [102, 97, 108, 115, 101]
  | .jnull => [110, 117, 108, 108]
  | .jnum raw => raw
  | .jarr _ => []
  | .jobj _ => []

def serField (kv : List Nat × JVal) : List Nat :=
  serStr kv.1 ++ [58, 32] ++ serScalar kv.2

/-- `", ".join` of the serialized members. -/
def serMembers : List (List Nat × JVal) → List Nat
  | [] => []
  | [kv] => serField kv
  | kv :: rest => serField kv ++ [44, 32] ++ serMembers rest

/-- `json.dumps` of a flat object with the default separators. -/
def serObjFields (fields : List (List Nat × JVal)) : List Nat :=
  123 :: serMembers fields ++ [125]

/-! ## Python formatting of parsed values (f-string interpolation)

`_signature` interpolates `payload.get(...)` values into
`f"{...}|{...}|{...}"`.  `str()` of strings/ints/bools/None is exact;
floats and containers are approximated by their literal text / a
simplified repr (model boundary: no token produced by `encode` contains
them, and a mismatch there can only make two non-`encode` payloads
disagree about the exact message text). -/

mutual

def pyFormat : JVal → List Nat
  | .jnull => [78, 111, 110, 101]
  | .jbool true => [84, 114, 117, 101]
  | .jbool false => [70, 97, 108, 115, 101]
  | .jint n => serInt n
  | .jnum raw => raw
  | .jstr s => s
  | .jarr xs => 91 :: pyReprList xs ++ [93]
  | .jobj fs => 123 :: pyReprFields fs ++ [125]

def pyRepr : JVal → List Nat
  | .jnull => [78, 111, 110, 101]
  | .jbool true => [84, 114, 117, 101]
  | .jbool false => [70, 97, 108, 115, 101]
  | .jint n => serInt n
  | .jnum raw => raw
  | .jstr s => 39 :: s ++ [39]
  | .jarr xs => 91 :: pyReprList xs ++ [93]
  | .jobj fs => 123 :: pyReprFields fs ++ [125]

def pyReprList : List JVal → List Nat
  | [] => []
  | [x] => pyRepr x
  | x :: rest => pyRepr x ++ [44, 32] ++ pyReprList rest

def pyReprFields : List (List Nat × JVal) → List Nat
  | [] => []
  | [kv] => 39 :: kv.1 ++ [39, 58, 32] ++ pyRepr kv.2
  | kv :: rest => 39 :: kv.1 ++ [39, 58, 32] ++ pyRepr kv.2 ++ [44, 32] ++
      pyReprFields rest

end

/-! ## The OAuth state codec (`QBOStateManager`, `app/services/qbo.py`) -/

def strCps (s : String) : List Nat := s.data.map Char.toNat

def kTenant : List Nat := strCps "tenant_id"

def kEntity : List Nat := strCps "entity_id"

def kRedirect : List Nat := strCps "redirect_uri"

def kTs : List Nat := strCps "ts"

def kNext : List Nat := strCps "next"

def kSig : List Nat := strCps "sig"

def TTL_SECONDS : Nat := 600

/-- `payload.get(k)`: the dict's binding, if any. -/
def dictGet (fields : List (List Nat × JVal)) (k : List Nat) : Option JVal :=
  (fields.find? fun kv => kv.1 == k).map fun kv => kv.2

/-- `payload.pop(k, None)` leaves the dict without the binding. -/
def dictRemove (fields : List (List Nat × JVal)) (k : List Nat) :
    List (List Nat × JVal) :=
  fields.filter fun kv => !(kv.1 == k)

def pyFormatOpt : Option JVal → List Nat
  | none => [78, 111, 110, 101]
  | some v => pyFormat v

/-- The signed message of `QBOStateManager._signature` (lines 85-92):
`f"{payload.get('tenant_id')}|{payload.get('entity_id')}|{payload.get('ts')}"`. -/
def signatureMsg (fields : List (List Nat × JVal)) : List Nat :=
  pyFormatOpt (dictGet fields kTenant) ++ [124] ++
    pyFormatOpt (dictGet fields kEntity) ++ [124] ++
    pyFormatOpt (dictGet fields kTs)

/-- `_signature`: lowercase hex HMAC-SHA256 of the signed message,
keyed by `settings.SECRET_KEY.encode()`. -/
def signatureHex (secret : List Nat) (fields : List (List Nat × JVal)) :
    List Nat :=
  bytesToHexCps (hmacSha256 secret (utf8Encode (signatureMsg fields)))

/-- `QBOStateManager.encode` (lines 47-65): the ordered payload dict
(`next` only when truthy), the signature over
(`tenant_id`, `entity_id`, `ts`) appended as `sig`, JSON-serialized and
urlsafe-base64-encoded.  `nowTs` is `int(time.time())`. -/
def encode (secret tenant_id entity_id redirect_uri : List Nat)
    (next_url : Option (List Nat)) (nowTs : Int) : List Nat :=
  let baseFields : List (List Nat × JVal) :=
    [(kTenant, .jstr tenant_id), (kEntity, .jstr entity_id),
     (kRedirect, .jstr redirect_uri), (kTs, .jint nowTs)]
  let fields := match next_url with
    | some nx => if nx ≠ [] then baseFields ++ [(kNext, .jstr nx)] else baseFields
    | none => baseFields
  b64encode (utf8Encode
    (serObjFields (fields ++ [(kSig, .jstr (signatureHex secret fields))])))

/-- Decode failures.  `invalidState` and `invalidSignature` are the two
`QBOStateError` "invalid" messages (the spec's `StateInvalid`);
`expired` is `"OAuth state expired"` (`StateExpired`);
`attributeError` models the uncaught `AttributeError` raised by
`payload.pop` when the JSON text is not an object. -/
inductive StateErr where
  | invalidState
  | invalidSignature
  | expired
  | attributeError
  deriving Repr, DecidableEq

/-- Truthiness of `payload.pop("sig", None)`.  Floats (`jnum`) are
treated as truthy — a falsy float `0.0` is reported as
`invalidSignature` either way, since a non-string never equals the
recomputed hex digest. -/
def pyTruthyJ : Option JVal → Bool
  | none => false
  | some .jnull => false
  | some (.jbool b) => b
  | some (.jint n) => decide (n ≠ 0)
  | some (.jnum _) => true
  | some (.jstr s) => !s.isEmpty
  | some (.jarr xs) => !xs.isEmpty
  | some (.jobj fs) => !fs.isEmpty

/-- `signature != _signature(payload)` in Python: a parsed JSON value
equals the recomputed hex digest string exactly when it is that
string. -/
def sigMatches (sig? : Option JVal) (hexsig : List Nat) : Bool :=
  match sig? with
  | some (.jstr s) => s == hexsig
  | _ => false

/-- `isinstance(ts, int)` with its value — `bool` is a Python `int`
subclass, so `true`/`false` count as `1`/`0`. -/
def tsInt? : Option JVal → Option Int
  | some (.jint n) => some n
  | some (.jbool b) => some (if b then 1 else 0)
  | _ => none

/-- `QBOStateManager.decode` (lines 67-83): urlsafe-base64 decode and
UTF-8 decode, JSON parse (failures are `QBOStateError` "Invalid OAuth
state"), pop `sig` and verify it against the recomputed signature
(mismatch or falsy: "Invalid OAuth state signature"), then check
`abs(now - ts) <= TTL` with `ts` an int ("OAuth state expired").
Returns the payload without `sig`. -/
def decode (secret raw_state : List Nat) (now : Int) :
    Except StateErr (List (List Nat × JVal)) :=
  match b64decode raw_state with
  | none => .error .invalidState
  | some bytes =>
    match utf8Decode bytes with
    | none => .error .invalidState
    | some cps =>
      match json_loads cps with
      | none => .error .invalidState
      | some (.jobj fields0) =>
        let sig? := dictGet fields0 kSig
        let fields := dictRemove fields0 kSig
        if !(pyTruthyJ sig?) then .error .invalidSignature
        else if !(sigMatches sig? (signatureHex secret fields)) then
          .error .invalidSignature
        else
          match tsInt? (dictGet fields kTs) with
          | none => .error .expired
          | some ts =>
            if (now - ts).natAbs > TTL_SECONDS then .error .expired
            else .ok fields
      | some _ => .error .attributeError

/-! ## Access-control data model

Rows of the tables consulted by the row-visibility filter
(`app/core/access.py`) and the import-run creation endpoint
(`app/api/v1/qbo_ingestion.py`); models in `app/models/role.py`,
`app/models/tenant.py`, `app/models/client_group.py`,
`app/models/entity.py`, `app/models/qbo_ingestion.py`. -/

structure RoleRow where
  id : String
  slug : String
  deriving Repr, DecidableEq

structure TenantMembershipRow where
  tenant_id : String
  user_id : String
  role_id : Option String
  deriving Repr, DecidableEq

structure ClientGroupRow where
  id : String
  tenant_id : String
  name : String
  deriving Repr, DecidableEq

structure ClientGroupMembershipRow where
  tenant_id : String
  user_id : String
  client_group_id : String
  role_slug : String
  deriving Repr, DecidableEq

structure ClientGroupEntityRow where
  tenant_id : String
  client_group_id : String
  entity_id : String
  deriving Repr, DecidableEq

structure EntityMembershipRow where
  tenant_id : String
  user_id : String
  entity_id : String
  deriving Repr, DecidableEq

structure EntityRow where
  id : String
  tenant_id : String
  deriving Repr, DecidableEq

structure ClientGroupTaxYearRow where
  id : String
  tenant_id : String
  client_group_id : String
  tax_year : Int
  deriving Repr, DecidableEq

/-- The tables visible to the visibility filter and the creation
endpoint. -/
structure AccessDB where
  roles : List RoleRow
  tenant_memberships : List TenantMembershipRow
  client_groups : List ClientGroupRow
  client_group_memberships : List ClientGroupMembershipRow
  client_group_entities : List ClientGroupEntityRow
  entity_memberships : List EntityMembershipRow
  entities : List EntityRow
  client_group_tax_years : List ClientGroupTaxYearRow
  import_runs : List ImportRunRow
  deriving Repr, DecidableEq

/-- `CLIENT_ROLE_SLUG` (`app/core/access.py` line 12). -/
def CLIENT_ROLE_SLUG : String := "client"

/-- `apply_tenant_filter` (`app/core/access.py` lines 15-17): the
`tenant_id == tenant_id` predicate added to a query. -/
def apply_tenant_filter {α : Type} (rows : List α) (tenant_id_of : α → String)
    (tenant_id : String) : List α :=
  rows.filter fun r => tenant_id_of r == tenant_id

/-- `get_user_role_slug` (`app/core/access.py` lines 20-30): the role
slug reached through the `TenantMembership → Role` join for
`(tenant_id, user_id)`; `scalar_one_or_none` modelled as the first
joined row. -/
def get_user_role_slug (db : AccessDB) (tenant_id user_id : String) :
    Option String :=
  ((db.tenant_memberships.filter fun m =>
      m.tenant_id == tenant_id && m.user_id == user_id).filterMap fun m =>
    (db.roles.find? fun r => some r.id == m.role_id).map fun r => r.slug).head?

/-- Entity ids reachable through a client-group membership: the
`group_entity_ids` subquery of `apply_entity_visibility`
(`app/core/access.py` lines 68-78) — `ClientGroupEntity` joined to
`ClientGroupMembership` on the group id, with the tenant and user
filters placed on the membership side only. -/
def groupEntityIds (db : AccessDB) (tenant_id user_id : String) : List String :=
  db.client_group_entities.filterMap fun ce =>
    if db.client_group_memberships.any fun m =>
        m.client_group_id == ce.client_group_id &&
          m.tenant_id == tenant_id && m.user_id == user_id then
      some ce.entity_id
    else none

/-- Entity ids granted directly: the `direct_entity_ids` subquery
(lines 79-82). -/
def directEntityIds (db : AccessDB) (tenant_id user_id : String) : List String :=
  (db.entity_memberships.filter fun m =>
    m.tenant_id == tenant_id && m.user_id == user_id).map fun m => m.entity_id

/-- The `union(group_entity_ids, direct_entity_ids)` subquery (lines
83-84); only membership matters to the enclosing `IN`, so SQL `UNION`
deduplication is immaterial. -/
def visibleEntityIds (db : AccessDB) (tenant_id user_id : String) : List String :=
  groupEntityIds db tenant_id user_id ++ directEntityIds db tenant_id user_id

/-- `apply_entity_visibility` (`app/core/access.py` lines 51-84) over a
query producing rows `α` whose entity-id column is `entity_id_column`:
when the given (or looked-up) role slug is the reserved client slug the
rows are restricted to those whose entity id is in the union subquery;
otherwise the query passes through unmodified. -/
def apply_entity_visibility {α : Type} (rows : List α)
    (entity_id_column : α → String) (tenant_id user_id : String)
    (db : AccessDB) (role_slug : Option String) : List α :=
  let slug := match role_slug with
    | some s => some s
    | none => get_user_role_slug db tenant_id user_id
  if slug ≠ some CLIENT_ROLE_SLUG then rows
  else rows.filter fun r =>
    (visibleEntityIds db tenant_id user_id).contains (entity_id_column r)

/-! ## The import-run creation endpoint

`create_import_run` (`app/api/v1/qbo_ingestion.py` lines 73-128).
`validate_tenant_access` returns `True` unconditionally in the source
(`app/core/tenant.py` lines 128-141), so `_require_tenant_access` never
fails and is a no-op here.  The fire-and-forget Celery dispatch is the
worker model above and is not part of the endpoint's persisted
effects. -/

/-- Errors surfaced by the endpoint as `HTTPException`s. -/
inductive ApiError where
  | forbidden (detail : String)
  | notFound (detail : String)
  deriving Repr, DecidableEq

def ApiError.statusCode : ApiError → Nat
  | .forbidden _ => 403
  | .notFound _ => 404

structure ImportRunCreate where
  entity_id : String
  tax_year : Int
  period_end_date : String
  client_group_id : Option String
  deriving Repr, DecidableEq

/-- `QBOImportService.ensure_client_group_tax_year`
(`app/services/qbo.py` lines 315-342): idempotent fetch-or-create of
the `(client_group, tax_year)` context record (no tenant filter in the
lookup — row security is assumed). -/
def ensure_client_group_tax_year (db : AccessDB) (tenant_id : String)
    (client_group_id : Option String) (tax_year : Int) (freshId : String) :
    AccessDB × Option ClientGroupTaxYearRow :=
  match client_group_id with
  | none => (db, none)
  | some gid =>
    match db.client_group_tax_years.find? fun t =>
        t.client_group_id == gid && t.tax_year == tax_year with
    | some t => (db, some t)
    | none =>
      let t : ClientGroupTaxYearRow := ⟨freshId, tenant_id, gid, tax_year⟩
      ({ db with client_group_tax_years := db.client_group_tax_years ++ [t] },
        some t)

/-- `create_import_run` (`app/api/v1/qbo_ingestion.py` lines 73-128)
under the `get_async_db` transaction semantics: an `HTTPException`
rolls the session back (state unchanged), a normal return commits.
Checks run in source order: client-role rejection, then the
tenant-filtered visibility-scoped entity lookup, then the optional
client-group lookup, then `ensure_client_group_tax_year`, then the
`queued` run row insert. -/
def create_import_run (db : AccessDB) (payload : ImportRunCreate)
    (user_id tenant_id freshRunId freshCgtyId : String) :
    AccessDB × Except ApiError ImportRunRow :=
  if get_user_role_slug db tenant_id user_id == some CLIENT_ROLE_SLUG then
    (db, .error (.forbidden "Client role cannot manage import runs"))
  else
    let entityQuery := apply_tenant_filter
      (db.entities.filter fun e => e.id == payload.entity_id)
      (fun e => e.tenant_id) tenant_id
    let visible := apply_entity_visibility entityQuery (fun e => e.id)
      tenant_id user_id db none
    match visible.head? with
    | none => (db, .error (.notFound "Entity not found"))
    | some _entity =>
      let groupOk := match payload.client_group_id with
        | none => true
        | some gid =>
          (apply_tenant_filter db.client_groups (fun g => g.tenant_id)
            tenant_id).any fun g => g.id == gid
      if !groupOk then (db, .error (.notFound "Client group not found"))
      else
        let (db1, cgty) := ensure_client_group_tax_year db tenant_id
          payload.client_group_id payload.tax_year freshCgtyId
        let run : ImportRunRow :=
          ⟨freshRunId, tenant_id, payload.entity_id, payload.tax_year,
            payload.period_end_date, "queued", none, none, none,
            payload.client_group_id, cgty.map (fun t => t.id), some user_id⟩
        ({ db1 with import_runs := db1.import_runs ++ [run] }, .ok run)

/-! ## Tenant context resolution (`app/core/tenant.py`)

The request is its header list; Starlette header lookup is
case-insensitive.  The ambient `ContextVar` is per-request plumbing
with no bearing on the resolution result and is not modelled. -/

structure HttpRequest where
  headers : List (String × String)
  deriving Repr, DecidableEq

def headerGet (req : HttpRequest) (name : String) : Option String :=
  (req.headers.find? fun kv =>
    pyLower kv.fst.data == pyLower name.data).map fun kv => kv.snd

/-- Python string truthiness for `Optional[str]`. -/
def pyTruthyStr : Option String → Bool
  | none => false
  | some s => !(s.data == [])

/-- `TenantIdentifier.from_subdomain` (lines 39-62): strip the port
from the `host` header, split on dots, take the first label when there
are at least three and it is not a reserved subdomain. -/
def from_subdomain (req : HttpRequest) : Option String :=
  let host := (headerGet req "host").getD ""
  let host := (host.splitOn ":").headD ""
  let parts := host.splitOn "."
  if parts.length ≥ 3 then
    let sub := parts.headD ""
    if ["www", "api", "admin", "app", "localhost"].contains sub then none
    else some sub
  else none

/-- `TenantIdentifier.from_header` (lines 64-68): the raw header value,
returned without any format validation. -/
def from_header (req : HttpRequest) (header_name : String) : Option String :=
  headerGet req header_name

/-- `TenantIdentifier.from_request` (lines 70-84), parameterised by the
configured `TENANT_IDENTIFICATION` mode and `TENANT_HEADER_NAME`. -/
def from_request (mode header_name : String) (req : HttpRequest) :
    Option String :=
  if mode == "subdomain" then from_subdomain req
  else if mode == "header" then from_header req header_name
  else
    let t := from_subdomain req
    if pyTruthyStr t then t else from_header req header_name

/-- `require_tenant` (lines 101-114) composed with
`get_current_tenant`: HTTP 400 when no (truthy) tenant identifier is
resolved, otherwise the resolved value is accepted as is. -/
def require_tenant (mode header_name : String) (req : HttpRequest) :
    Except (Nat × String) String :=
  match from_request mode header_name req with
  | some t =>
    if t.data == [] then
      .error (400,
        "Tenant identification required. Please provide tenant via subdomain or header.")
    else .ok t
  | none =>
    .error (400,
      "Tenant identification required. Please provide tenant via subdomain or header.")

/-! ## Concrete fixtures used by witnesses and counterexamples -/

def sampleRunQueued : ImportRunRow :=
  ⟨"r1", "t1", "e1", 2024, "2024-12-31", "queued", none, none, none,
    none, none, none⟩

def sampleRunQueued2 : ImportRunRow :=
  ⟨"r2", "t1", "e1", 2024, "2024-12-31", "queued", none, none, none,
    none, none, none⟩

def sampleRunSuccess : ImportRunRow :=
  ⟨"r1", "t1", "e1", 2024, "2024-12-31", "success", some 10, some 20, none,
    none, none, none⟩

def sampleConn : QBOConnectionRow :=
  ⟨"t1", "e1", "realm1", "tok", some "rtok", none⟩

def sampleDB : TenantDB := ⟨[sampleRunQueued], [sampleConn], [], [], []⟩

def sampleDB2 : TenantDB :=
  ⟨[sampleRunQueued, sampleRunQueued2], [sampleConn], [], [], []⟩

def sampleDBSuccess : TenantDB := ⟨[sampleRunSuccess], [sampleConn], [], [], []⟩

def sampleDBNoConn : TenantDB := ⟨[sampleRunQueued], [], [], [], []⟩

def envRateLimited : WorkerEnv :=
  ⟨100, .rateLimited, .failure "unused", "snap1", fun n => "acct" ++ toString n⟩

def envHttpError : WorkerEnv :=
  ⟨100, .httpError "boom", .failure "unused", "snap1", fun n => "acct" ++ toString n⟩

def envFetchEmpty : WorkerEnv :=
  ⟨100, .success [], .failure "unused", "snap1", fun n => "acct" ++ toString n⟩

def envFetchEmpty2 : WorkerEnv :=
  ⟨200, .success [], .failure "unused", "snap2", fun n => "acct2x" ++ toString n⟩

/-- Tenant `t1`: user `u1` has the `client` role, is in group `g1`
(which is assigned entity `e2`) and holds a direct membership on
entity `e1`; entity `e3` is not granted to `u1` in any way. -/
def sampleAccessDB : AccessDB :=
  ⟨[⟨"role1", "client"⟩, ⟨"role2", "admin"⟩],
    [⟨"t1", "u1", some "role1"⟩, ⟨"t1", "u2", some "role2"⟩],
    [⟨"g1", "t1", "Group One"⟩],
    [⟨"t1", "u1", "g1", "client"⟩],
    [⟨"t1", "g1", "e2"⟩],
    [⟨"t1", "u1", "e1"⟩],
    [⟨"e1", "t1"⟩, ⟨"e2", "t1"⟩, ⟨"e3", "t1"⟩],
    [], []⟩

end Saas

/-! # Theorems -/

namespace Saas

/-! ## List-level helper lemmas about run replacement -/

/-- Replacing the row found by a `find?` on ids with a row of the same
id makes `find?` return the replacement. -/
theorem find?_map_replace (l : List ImportRunRow) (rid : String)
    (run r2 : ImportRunRow)
    (h : l.find? (fun x => x.id == rid) = some run) (hid : r2.id = run.id) :
    (l.map (fun x => if x.id == r2.id then r2 else x)).find?
      (fun x => x.id == rid) = some r2 := by
  induction l with
  | nil => simp at h
  | cons x xs ih =>
    by_cases hx : x.id = rid
    · have hbx : (x.id == rid) = true := beq_iff_eq.mpr hx
      rw [List.find?_cons, hbx] at h
      simp only [Option.some.injEq] at h
      have hr2x : r2.id = x.id := by rw [hid, ← h]
      have hcond : (x.id == r2.id) = true := beq_iff_eq.mpr hr2x.symm
      have hr2rid : (r2.id == rid) = true := beq_iff_eq.mpr (hr2x.trans hx)
      have hif : (if x.id == r2.id then r2 else x) = r2 := by
        rw [hcond]
        simp
      rw [List.map_cons, List.find?_cons, hif, hr2rid]
    · have hbx : (x.id == rid) = false := beq_eq_false_iff_ne.mpr hx
      rw [List.find?_cons, hbx] at h
      simp only [] at h
      have hrid : run.id = rid := by
        simpa [beq_iff_eq] using List.find?_some h
      have hheadcond : ((if x.id == r2.id then r2 else x).id == rid) = false := by
        by_cases hxr : x.id = r2.id
        · exact absurd (hxr.trans (hid.trans hrid)) hx
        · have hb : (x.id == r2.id) = false := beq_eq_false_iff_ne.mpr hxr
          simp [hb, beq_eq_false_iff_ne]
          exact hx
      rw [List.map_cons, List.find?_cons, hheadcond]
      simpa using ih h

/-- Replacing rows of a different id leaves the `find?` result alone. -/
theorem find?_map_replace_ne (l : List ImportRunRow) (rid : String)
    (run r2 : ImportRunRow)
    (h : l.find? (fun x => x.id == rid) = some run)
    (hid : r2.id ≠ rid) :
    (l.map (fun x => if x.id == r2.id then r2 else x)).find?
      (fun x => x.id == rid) = some run := by
  induction l with
  | nil => simp at h
  | cons x xs ih =>
    by_cases hx : x.id = rid
    · have hbx : (x.id == rid) = true := beq_iff_eq.mpr hx
      rw [List.find?_cons, hbx] at h
      simp only [Option.some.injEq] at h
      have hxr : ¬ x.id = r2.id := fun he => hid (he ▸ hx)
      have hcond : (x.id == r2.id) = false := beq_eq_false_iff_ne.mpr hxr
      have hif : (if x.id == r2.id then r2 else x) = x := by
        rw [hcond]
        simp
      rw [List.map_cons, List.find?_cons, hif, hbx, h]
    · have hbx : (x.id == rid) = false := beq_eq_false_iff_ne.mpr hx
      rw [List.find?_cons, hbx] at h
      simp only [] at h
      have hheadcond : ((if x.id == r2.id then r2 else x).id == rid) = false := by
        by_cases hxr : x.id = r2.id
        · have hb : (x.id == r2.id) = true := beq_iff_eq.mpr hxr
          simp [hb, beq_eq_false_iff_ne]
          exact hid
        · have hb : (x.id == r2.id) = false := beq_eq_false_iff_ne.mpr hxr
          simp [hb, beq_eq_false_iff_ne]
          exact hx
      rw [List.map_cons, List.find?_cons, hheadcond]
      simpa using ih h

/-! ## Preservation lemmas for the orchestrator -/

theorem updateRun_snapshots (db : TenantDB) (r : ImportRunRow) :
    (updateRun db r).snapshots = db.snapshots := rfl

theorem updateRun_connections (db : TenantDB) (r : ImportRunRow) :
    (updateRun db r).connections = db.connections := rfl

theorem updateConnection_runs (db : TenantDB) (c : QBOConnectionRow) :
    (updateConnection db c).runs = db.runs := rfl

theorem updateConnection_snapshots (db : TenantDB) (c : QBOConnectionRow) :
    (updateConnection db c).snapshots = db.snapshots := rfl

theorem get_or_create_account_runs (env : WorkerEnv) (db : TenantDB)
    (counter : Nat) (e t n : String) (ext ty : Option String) :
    ((get_or_create_account env db counter e t n ext ty).2.1).runs = db.runs := by
  unfold get_or_create_account
  split <;> (dsimp only; split <;> rfl)

theorem get_or_create_account_snapshots (env : WorkerEnv) (db : TenantDB)
    (counter : Nat) (e t n : String) (ext ty : Option String) :
    ((get_or_create_account env db counter e t n ext ty).2.1).snapshots
      = db.snapshots := by
  unfold get_or_create_account
  split <;> (dsimp only; split <;> rfl)

theorem writeLines_runs (env : WorkerEnv) (run : ImportRunRow) (sid : String) :
    ∀ (ls : List NormalizedLine) (db : TenantDB)
      (cache : List (String × AccountRow)) (counter : Nat),
    (writeLines env run sid ls db cache counter).runs = db.runs := by
  intro ls
  induction ls with
  | nil => intro db cache counter; rfl
  | cons l rest ih =>
    intro db cache counter
    rw [writeLines, ih]
    rcases hc : cache.find? (fun kv => kv.fst == lineKey l) with _ | kv
    · simp only [hc]
      exact get_or_create_account_runs env db counter _ _ _ _ _
    · simp only [hc]

theorem writeLines_snapshots (env : WorkerEnv) (run : ImportRunRow) (sid : String) :
    ∀ (ls : List NormalizedLine) (db : TenantDB)
      (cache : List (String × AccountRow)) (counter : Nat),
    (writeLines env run sid ls db cache counter).snapshots = db.snapshots := by
  intro ls
  induction ls with
  | nil => intro db cache counter; rfl
  | cons l rest ih =>
    intro db cache counter
    rw [writeLines, ih]
    rcases hc : cache.find? (fun kv => kv.fst == lineKey l) with _ | kv
    · simp only [hc]
      exact get_or_create_account_snapshots env db counter _ _ _ _ _
    · simp only [hc]

theorem write_snapshot_runs (env : WorkerEnv) (db : TenantDB)
    (run : ImportRunRow) (rows : List ReportRow) :
    (write_snapshot env db run rows).runs = db.runs := by
  unfold write_snapshot
  rw [writeLines_runs]

theorem write_snapshot_snapshots (env : WorkerEnv) (db : TenantDB)
    (run : ImportRunRow) (rows : List ReportRow) :
    (write_snapshot env db run rows).snapshots
      = db.snapshots ++
        [⟨env.freshSnapshotId, run.tenant_id, run.entity_id, run.id,
          run.tax_year, run.period_end_date⟩] := by
  unfold write_snapshot
  rw [writeLines_snapshots]

theorem findRun_after_update (dbX : TenantDB) (run_id : String)
    (run1 run2 : ImportRunRow)
    (h : findRun dbX run_id = some run1) (hid : run2.id = run1.id) :
    findRun (updateRun dbX run2) run_id = some run2 :=
  find?_map_replace _ _ _ _ h hid

/-! ## C9: the amount parser -/

/-- **C9.** The amount parser maps `"1,234.56"` to `1234.56` and
`"(500.00)"` to `-500.00`; the empty string, a missing value and an
unparsable value all give `0`.  Thousands separators are stripped (the
comma-free spelling parses identically) and a parenthesised value is
negated.  `parse_amount` is a total Lean function, so no input aborts
the run. -/
theorem c9_parse_amount_spec :
    parse_amount (some "1,234.56") = .num 123456 (-2) ∧
    decVal (parse_amount (some "1,234.56")) = 1234.56 ∧
    parse_amount (some "(500.00)") = .num (-50000) (-2) ∧
    decVal (parse_amount (some "(500.00)")) = -500 ∧
    parse_amount (some "") = .num 0 0 ∧
    parse_amount none = .num 0 0 ∧
    parse_amount (some "12abc") = .num 0 0 ∧
    parse_amount (some "1,234.56") = parse_amount (some "1234.56") := by
  refine ⟨by decide, ?_, by decide, ?_, by decide, by decide, by decide, by decide⟩
  · have h : parse_amount (some "1,234.56") = .num 123456 (-2) := by decide
    rw [h]
    norm_num [decVal]
  · have h : parse_amount (some "(500.00)") = .num (-50000) (-2) := by decide
    rw [h]
    norm_num [decVal]

/-! ## C1: the rate-limit path of `process_run` -/

/-- **C1 counterexample.**  A concrete rate-limited invocation: run
`"r1"` is `queued`, its connection exists, the trial-balance call
answers HTTP 429.  After the worker invocation the persisted status is
still `"queued"` — not `"running"` as the claim states — because the
in-session `running` update is rolled back when `QBORateLimitExceeded`
propagates out of the `get_tenant_db` block.  The task is nevertheless
retried, as the claim says. -/
theorem c1_counterexample :
    runStatus (process_qbo_import_run_task envRateLimited sampleDB "r1" "t1").1 "r1"
        = some "queued" ∧
    some "queued" ≠ some "running" ∧
    (process_qbo_import_run_task envRateLimited sampleDB "r1" "t1").2
        = .retried .rateLimited := by
  exact ⟨by decide, by decide, by decide⟩

/-- **C1 (amended).**  On the provider rate-limit signal the exception
escapes the session, which rolls the transaction back: the run's
persisted row is completely unchanged (it remains `queued`, with no
terminal status and no error text), and the task queue catches
`QBORateLimitExceeded` and reschedules with its retry delay. -/
theorem c1_rate_limited_rolls_back
    (env : WorkerEnv) (db : TenantDB) (run_id tenant_id : String)
    (run : ImportRunRow) (conn conn1 : QBOConnectionRow)
    (hfetch : env.fetch = .rateLimited)
    (hrun : findRun db run_id = some run)
    (hconn : findConnection db run.entity_id tenant_id = some conn)
    (hrefresh : maybeRefresh env conn = .ok conn1) :
    process_run env db run_id tenant_id = (db, .error .rateLimited) ∧
    process_qbo_import_run_task env db run_id tenant_id
      = (db, .retried .rateLimited) := by
  have hconn2 : findConnection
      (updateRun db { run with
        status := "running", started_at := some env.now, finished_at := none })
      run.entity_id tenant_id = some conn := hconn
  have hsession : processRunSession env db run_id tenant_id = .error .rateLimited := by
    simp only [processRunSession, hrun, hconn2, hrefresh, hfetch]
  constructor
  · unfold process_run
    rw [hsession]
  · unfold process_qbo_import_run_task process_run
    rw [hsession]

/-- Closed witness for `c1_rate_limited_rolls_back` at the concrete
fixture. -/
theorem c1_rate_limited_rolls_back_witness :
    process_run envRateLimited sampleDB "r1" "t1"
        = (sampleDB, .error .rateLimited) ∧
    process_qbo_import_run_task envRateLimited sampleDB "r1" "t1"
      = (sampleDB, .retried .rateLimited) :=
  c1_rate_limited_rolls_back envRateLimited sampleDB "r1" "t1"
    sampleRunQueued sampleConn sampleConn rfl rfl rfl rfl

/-! ## C4: terminal statuses and re-invocation -/

/-- **C4 counterexample.**  A run already in the terminal status
`"success"` is re-executed by a further `process_run` invocation whose
fetch fails: the code has no terminal-status guard, so the invocation
does not leave the status unchanged — it moves the run to `"failed"`. -/
theorem c4_counterexample :
    runStatus sampleDBSuccess "r1" = some "success" ∧
    runStatus (process_run envHttpError sampleDBSuccess "r1" "t1").1 "r1"
      = some "failed" := by
  exact ⟨by decide, by decide⟩

/-- **C4 (amended).**  `process_run` does not inspect the current
status: an invocation either rolls back (status unchanged) or commits a
terminal status, so a re-invocation on a terminal run re-executes it
and may overwrite the terminal status; only the dispatch discipline
(each run enqueued once) keeps terminal states stable. -/
theorem c4_status_after_invocation (env : WorkerEnv) (db : TenantDB)
    (run_id tenant_id : String) :
    runStatus (process_run env db run_id tenant_id).1 run_id = runStatus db run_id ∨
    runStatus (process_run env db run_id tenant_id).1 run_id = some "failed" ∨
    runStatus (process_run env db run_id tenant_id).1 run_id = some "success" := by
  unfold process_run
  cases hsb : processRunSession env db run_id tenant_id with
  | error e => left; rfl
  | ok db1 =>
    unfold processRunSession at hsb
    cases hrun : findRun db run_id with
    | none => simp [hrun] at hsb
    | some run =>
      simp only [hrun] at hsb
      cases hconn : findConnection (updateRun db { run with
          status := "running", started_at := some env.now, finished_at := none })
          run.entity_id tenant_id with
      | none => simp [hconn] at hsb
      | some conn =>
        simp only [hconn] at hsb
        cases hmr : maybeRefresh env conn with
        | error e => simp [hmr] at hsb
        | ok conn1 =>
          simp only [hmr] at hsb
          cases hf : env.fetch with
          | rateLimited => simp [hf] at hsb
          | httpError m =>
            simp only [hf, Except.ok.injEq] at hsb
            right; left
            rw [← hsb]
            have ha : findRun (updateRun db { run with
                status := "running", started_at := some env.now,
                finished_at := none }) run_id
                = some { run with
                    status := "running", started_at := some env.now,
                    finished_at := none } :=
              findRun_after_update db run_id run _ hrun rfl
            have hb : findRun (updateConnection (updateRun db { run with
                status := "running", started_at := some env.now,
                finished_at := none }) conn1) run_id
                = some { run with
                    status := "running", started_at := some env.now,
                    finished_at := none } := ha
            have hc := findRun_after_update _ run_id _
              ({ run with
                  status := "failed", started_at := some env.now,
                  error_text := some m, finished_at := some env.now }) hb rfl
            unfold runStatus
            rw [hc]
            rfl
          | success rows =>
            simp only [hf, Except.ok.injEq] at hsb
            right; right
            rw [← hsb]
            have ha : findRun (updateRun db { run with
                status := "running", started_at := some env.now,
                finished_at := none }) run_id
                = some { run with
                    status := "running", started_at := some env.now,
                    finished_at := none } :=
              findRun_after_update db run_id run _ hrun rfl
            have hruns3 : (write_snapshot env (updateConnection (updateRun db
                { run with
                  status := "running", started_at := some env.now,
                  finished_at := none }) conn1)
                { run with
                  status := "running", started_at := some env.now,
                  finished_at := none } rows).runs
                = (updateRun db { run with
                    status := "running", started_at := some env.now,
                    finished_at := none }).runs := by
              rw [write_snapshot_runs, updateConnection_runs]
            have hb : findRun (write_snapshot env (updateConnection (updateRun db
                { run with
                  status := "running", started_at := some env.now,
                  finished_at := none }) conn1)
                { run with
                  status := "running", started_at := some env.now,
                  finished_at := none } rows) run_id
                = some { run with
                    status := "running", started_at := some env.now,
                    finished_at := none } := by
              unfold findRun
              rw [hruns3]
              exact ha
            have hc := findRun_after_update _ run_id _
              ({ run with
                  status := "success", started_at := some env.now,
                  finished_at := some env.now, error_text := none }) hb rfl
            unfold runStatus
            rw [hc]
            rfl


/-! ## C8: snapshots are append-only -/

/-- Inversion of a committed successful invocation: when the fetch
succeeds and `process_run` returns normally, exactly one fresh snapshot
row, tied to the executing run, is appended. -/
theorem process_run_success_snapshot (env : WorkerEnv) (db : TenantDB)
    (run_id tenant_id : String) (rows : List ReportRow)
    (hf : env.fetch = .success rows)
    (hok : (process_run env db run_id tenant_id).2 = .ok ()) :
    ∃ run : ImportRunRow, findRun db run_id = some run ∧
      ((process_run env db run_id tenant_id).1).snapshots
        = db.snapshots ++
          [⟨env.freshSnapshotId, run.tenant_id, run.entity_id, run.id,
            run.tax_year, run.period_end_date⟩] := by
  unfold process_run at hok ⊢
  cases hsb : processRunSession env db run_id tenant_id with
  | error e => rw [hsb] at hok; simp at hok
  | ok db1 =>
    simp only [hsb]
    unfold processRunSession at hsb
    cases hrun : findRun db run_id with
    | none => simp [hrun] at hsb
    | some run =>
      simp only [hrun] at hsb
      refine ⟨run, rfl, ?_⟩
      cases hconn : findConnection (updateRun db { run with
          status := "running", started_at := some env.now, finished_at := none })
          run.entity_id tenant_id with
      | none => simp [hconn] at hsb
      | some conn =>
        simp only [hconn] at hsb
        cases hmr : maybeRefresh env conn with
        | error e => simp [hmr] at hsb
        | ok conn1 =>
          simp only [hmr] at hsb
          rw [hf] at hsb
          simp only [Except.ok.injEq] at hsb
          rw [← hsb, updateRun_snapshots, write_snapshot_snapshots,
            updateConnection_snapshots, updateRun_snapshots]

/-- Every invocation of `process_run` leaves the existing snapshot rows
in place and at most appends new ones. -/
theorem process_run_snapshots_extend (env : WorkerEnv) (db : TenantDB)
    (rid t : String) :
    ∃ tail, ((process_run env db rid t).1).snapshots = db.snapshots ++ tail := by
  unfold process_run
  cases hsb : processRunSession env db rid t with
  | error e => exact ⟨[], by simp⟩
  | ok db1 =>
    simp only
    unfold processRunSession at hsb
    cases hrun : findRun db rid with
    | none => simp [hrun] at hsb
    | some run =>
      simp only [hrun] at hsb
      cases hconn : findConnection (updateRun db { run with
          status := "running", started_at := some env.now, finished_at := none })
          run.entity_id t with
      | none => simp [hconn] at hsb
      | some conn =>
        simp only [hconn] at hsb
        cases hmr : maybeRefresh env conn with
        | error e => simp [hmr] at hsb
        | ok conn1 =>
          simp only [hmr] at hsb
          cases hfe : env.fetch with
          | rateLimited => simp [hfe] at hsb
          | httpError m =>
            simp only [hfe, Except.ok.injEq] at hsb
            refine ⟨[], ?_⟩
            rw [← hsb, updateRun_snapshots, updateConnection_snapshots,
              updateRun_snapshots, List.append_nil]
          | success rows =>
            simp only [hfe, Except.ok.injEq] at hsb
            refine ⟨[⟨env.freshSnapshotId, run.tenant_id, run.entity_id, run.id,
              run.tax_year, run.period_end_date⟩], ?_⟩
            rw [← hsb, updateRun_snapshots, write_snapshot_snapshots,
              updateConnection_snapshots, updateRun_snapshots]

/-- **C8.**  Executing two import runs for the same
`(entity, tax_year, period_end_date)` appends two distinct snapshot
rows, one per run id, leaving the previously persisted snapshots
untouched; and in general every invocation of the orchestrator only
ever appends to the snapshot table (append-only law). -/
theorem c8_two_runs_two_snapshots
    (env1 env2 : WorkerEnv) (db0 : TenantDB) (tid : String)
    (r1 r2 : ImportRunRow) (rows1 rows2 : List ReportRow)
    (hf1 : env1.fetch = .success rows1) (hf2 : env2.fetch = .success rows2)
    (hr1 : findRun db0 r1.id = some r1)
    (hr2 : findRun (process_run env1 db0 r1.id tid).1 r2.id = some r2)
    (hne : r1.id ≠ r2.id)
    (hsameEntity : r2.entity_id = r1.entity_id)
    (hsameYear : r2.tax_year = r1.tax_year)
    (hsamePeriod : r2.period_end_date = r1.period_end_date)
    (hok1 : (process_run env1 db0 r1.id tid).2 = .ok ())
    (hok2 : (process_run env2 (process_run env1 db0 r1.id tid).1 r2.id tid).2
      = .ok ()) :
    (∃ s1 s2 : SnapshotRow,
      ((process_run env2 (process_run env1 db0 r1.id tid).1 r2.id tid).1).snapshots
        = db0.snapshots ++ [s1, s2] ∧
      s1.import_run_id = r1.id ∧ s2.import_run_id = r2.id ∧ s1 ≠ s2) ∧
    ∀ (env : WorkerEnv) (db : TenantDB) (rid t : String),
      ∃ tail, ((process_run env db rid t).1).snapshots = db.snapshots ++ tail := by
  constructor
  · obtain ⟨run1, hfr1, hsnap1⟩ :=
      process_run_success_snapshot env1 db0 r1.id tid rows1 hf1 hok1
    obtain ⟨run2, hfr2, hsnap2⟩ :=
      process_run_success_snapshot env2 (process_run env1 db0 r1.id tid).1
        r2.id tid rows2 hf2 hok2
    have he1 : run1 = r1 := by
      rw [hr1] at hfr1
      exact (Option.some_inj.mp hfr1).symm
    have he2 : run2 = r2 := by
      rw [hr2] at hfr2
      exact (Option.some_inj.mp hfr2).symm
    rw [he1] at hsnap1
    rw [he2] at hsnap2
    refine ⟨⟨env1.freshSnapshotId, r1.tenant_id, r1.entity_id, r1.id,
        r1.tax_year, r1.period_end_date⟩,
      ⟨env2.freshSnapshotId, r2.tenant_id, r2.entity_id, r2.id,
        r2.tax_year, r2.period_end_date⟩, ?_, rfl, rfl, ?_⟩
    · rw [hsnap2, hsnap1, List.append_assoc]
      rfl
    · intro hcontra
      exact hne (congrArg SnapshotRow.import_run_id hcontra)
  · intro env db rid t
    exact process_run_snapshots_extend env db rid t

/-- Closed witness for `c8_two_runs_two_snapshots` at concrete
fixtures: runs `r1` and `r2` for the same entity, tax year and period,
executed in sequence. -/
theorem c8_two_runs_two_snapshots_witness :
    (∃ s1 s2 : SnapshotRow,
      ((process_run envFetchEmpty2 (process_run envFetchEmpty sampleDB2 "r1" "t1").1
          "r2" "t1").1).snapshots
        = sampleDB2.snapshots ++ [s1, s2] ∧
      s1.import_run_id = "r1" ∧ s2.import_run_id = "r2" ∧ s1 ≠ s2) ∧
    ∀ (env : WorkerEnv) (db : TenantDB) (rid t : String),
      ∃ tail, ((process_run env db rid t).1).snapshots = db.snapshots ++ tail :=
  c8_two_runs_two_snapshots envFetchEmpty envFetchEmpty2 sampleDB2 "t1"
    sampleRunQueued sampleRunQueued2 [] [] rfl rfl rfl rfl
    (by decide) rfl rfl rfl rfl rfl

/-! ## C5: the missing-connection path -/

/-- **C5.**  Evaluation of the code at the failing input: run `"r1"`
is `queued` and its entity has no `QBOConnection` row.  `process_run`
raises the connection-missing `QBOError` *outside* the
`try/except` that marks runs failed, so the exception propagates, the
transaction rolls back, the run stays `queued` with no error text —
it is never marked `failed` — and the Celery task (which only catches
`QBORateLimitExceeded`) errors out without retrying. -/
theorem c5_missing_connection_run_left_queued :
    process_run envHttpError sampleDBNoConn "r1" "t1"
        = (sampleDBNoConn, .error .connectionMissing) ∧
    runStatus sampleDBNoConn "r1" = some "queued" ∧
    runErrorText sampleDBNoConn "r1" = some none ∧
    process_qbo_import_run_task envHttpError sampleDBNoConn "r1" "t1"
        = (sampleDBNoConn, .errored .connectionMissing) := by
  exact ⟨rfl, by decide, by decide, rfl⟩

/-! ## C3: client-role entity visibility -/

/-- **C3.**  For a user whose role slug in the tenant is the reserved
`"client"` slug, `apply_entity_visibility` admits a row only if it was
in the base query and its entity id lies in the union subquery — that
is, it is reachable through a client-group membership or granted
directly via `EntityMembership`; the two reachability sets are combined
with set union (`++` membership) before filtering. -/
theorem c3_client_visibility_union {α : Type} (db : AccessDB)
    (rows : List α) (entity_id_column : α → String)
    (tenant_id user_id : String) (r : α)
    (hrole : get_user_role_slug db tenant_id user_id = some CLIENT_ROLE_SLUG)
    (hmem : r ∈ apply_entity_visibility rows entity_id_column
      tenant_id user_id db none) :
    r ∈ rows ∧
    entity_id_column r ∈ visibleEntityIds db tenant_id user_id ∧
    (entity_id_column r ∈ groupEntityIds db tenant_id user_id ∨
      entity_id_column r ∈ directEntityIds db tenant_id user_id) := by
  have hresolved : apply_entity_visibility rows entity_id_column
      tenant_id user_id db none
      = rows.filter fun x =>
          (visibleEntityIds db tenant_id user_id).contains (entity_id_column x) := by
    unfold apply_entity_visibility
    simp [hrole, CLIENT_ROLE_SLUG]
  rw [hresolved] at hmem
  rw [List.mem_filter] at hmem
  obtain ⟨hrows, hcontains⟩ := hmem
  have hvis : entity_id_column r ∈ visibleEntityIds db tenant_id user_id := by
    simpa using hcontains
  refine ⟨hrows, hvis, ?_⟩
  unfold visibleEntityIds at hvis
  exact List.mem_append.mp hvis

/-- Closed witness for `c3_client_visibility_union`: client user `u1`
sees entity `e1` through its direct membership. -/
theorem c3_client_visibility_union_witness :
    (⟨"e1", "t1"⟩ : EntityRow) ∈ sampleAccessDB.entities ∧
    "e1" ∈ visibleEntityIds sampleAccessDB "t1" "u1" ∧
    ("e1" ∈ groupEntityIds sampleAccessDB "t1" "u1" ∨
      "e1" ∈ directEntityIds sampleAccessDB "t1" "u1") :=
  c3_client_visibility_union sampleAccessDB sampleAccessDB.entities
    (fun e => e.id) "t1" "u1" ⟨"e1", "t1"⟩ (by decide) (by decide)

/-! ## C10: client-role users cannot create import runs -/

/-- **C10.**  When the caller's role slug in the active tenant is
`"client"`, `create_import_run` fails with HTTP 403 and leaves the
database untouched (no `ImportRun` row).  The statement is universally
quantified over the database, so the rejection is independent of the
entity tables — it happens before any entity lookup and applies even
when the requested entity is visible to the caller. -/
theorem c10_client_role_forbidden (db : AccessDB) (payload : ImportRunCreate)
    (user_id tenant_id freshRunId freshCgtyId : String)
    (hrole : get_user_role_slug db tenant_id user_id = some CLIENT_ROLE_SLUG) :
    create_import_run db payload user_id tenant_id freshRunId freshCgtyId
      = (db, .error (.forbidden "Client role cannot manage import runs")) ∧
    (ApiError.forbidden "Client role cannot manage import runs").statusCode
      = 403 := by
  constructor
  · unfold create_import_run
    rw [hrole]
    simp [CLIENT_ROLE_SLUG]
  · rfl

/-- Closed witness for `c10_client_role_forbidden`: the client user
`u1` asks for entity `e1`, which *is* visible to it through a direct
membership, and is still rejected with 403 and no created row. -/
theorem c10_client_role_forbidden_witness :
    create_import_run sampleAccessDB ⟨"e1", 2024, "2024-12-31", none⟩
        "u1" "t1" "rNew" "cgtyNew"
      = (sampleAccessDB,
          .error (.forbidden "Client role cannot manage import runs")) ∧
    (ApiError.forbidden "Client role cannot manage import runs").statusCode
      = 403 :=
  c10_client_role_forbidden sampleAccessDB ⟨"e1", 2024, "2024-12-31", none⟩
    "u1" "t1" "rNew" "cgtyNew" (by decide)

/-! ## C7: tenant-header validation -/

/-- **C7.**  Evaluation of the tenant resolver at the failing input.
In header mode a missing header fails with HTTP 400 (that half of the
claim holds), but a malformed, non-UUID header value is returned
verbatim by `from_header` and accepted by `require_tenant` as the
tenant identifier — no `InvalidTenantFormat` rejection exists in
`app/core/tenant.py`, although the repository's own test
(`tests/test_tenant_header.py`,
`test_tenant_identifier_from_header_invalid_uuid`) asserts that
`from_header` returns `None` for `"not-a-uuid"`. -/
theorem c7_malformed_header_accepted :
    require_tenant "header" "X-Tenant-ID" ⟨[]⟩
        = .error (400,
          "Tenant identification required. Please provide tenant via subdomain or header.") ∧
    from_header ⟨[("x-tenant-id", "not-a-uuid")]⟩ "X-Tenant-ID"
        = some "not-a-uuid" ∧
    require_tenant "header" "X-Tenant-ID" ⟨[("x-tenant-id", "not-a-uuid")]⟩
        = .ok "not-a-uuid" := by
  exact ⟨rfl, rfl, rfl⟩

/-! ## Codec lemmas: base64url -/

theorem b64Char_spec : ∀ v, v < 64 → b64Val? (b64Char v) = some v ∧ b64Char v ≠ 61 := by
  decide

theorem b64_pred_char (v : Nat) (hv : v < 64) :
    ((b64Val? (b64Char v)).isSome || (b64Char v == 61)) = true := by
  rw [(b64Char_spec v hv).1]
  rfl

theorem b64val_char (v : Nat) (hv : v < 64) : b64Val? (b64Char v) = some v :=
  (b64Char_spec v hv).1

theorem b64encode_filter : ∀ (n : Nat) (bs : List Nat), bs.length ≤ n →
    (∀ b ∈ bs, b < 256) →
    (b64encode bs).filter (fun c => (b64Val? c).isSome || c == 61)
      = b64encode bs := by
  intro n
  induction n with
  | zero =>
    intro bs hlen _
    cases bs with
    | nil => rfl
    | cons a l => simp at hlen
  | succ n ih =>
    intro bs hlen hb
    rcases bs with _ | ⟨b0, _ | ⟨b1, _ | ⟨b2, rest⟩⟩⟩
    · rfl
    · have h0 : b0 < 256 := hb b0 (by simp)
      simp [b64encode, List.filter_cons, b64_pred_char _ (show b0 / 4 < 64 by omega),
        b64_pred_char _ (show b0 % 4 * 16 < 64 by omega)]
    · have h0 : b0 < 256 := hb b0 (by simp)
      have h1 : b1 < 256 := hb b1 (by simp)
      simp [b64encode, List.filter_cons, b64_pred_char _ (show b0 / 4 < 64 by omega),
        b64_pred_char _ (show b0 % 4 * 16 + b1 / 16 < 64 by omega),
        b64_pred_char _ (show b1 % 16 * 4 < 64 by omega)]
    · have h0 : b0 < 256 := hb b0 (by simp)
      have h1 : b1 < 256 := hb b1 (by simp)
      have h2 : b2 < 256 := hb b2 (by simp)
      have hrest : rest.length ≤ n := by
        simp at hlen
        omega
      have ihr := ih rest hrest (fun b hmem => hb b (by simp [hmem]))
      simp [b64encode, List.filter_cons, b64_pred_char _ (show b0 / 4 < 64 by omega),
        b64_pred_char _ (show b0 % 4 * 16 + b1 / 16 < 64 by omega),
        b64_pred_char _ (show b1 % 16 * 4 + b2 / 64 < 64 by omega),
        b64_pred_char _ (show b2 % 64 < 64 by omega), ihr]
  
theorem b64encode_length : ∀ (n : Nat) (bs : List Nat), bs.length ≤ n →
    (b64encode bs).length % 4 = 0 := by
  intro n
  induction n with
  | zero =>
    intro bs hlen
    cases bs with
    | nil => rfl
    | cons a l => simp at hlen
  | succ n ih =>
    intro bs hlen
    rcases bs with _ | ⟨b0, _ | ⟨b1, _ | ⟨b2, rest⟩⟩⟩
    · rfl
    · simp [b64encode]
    · simp [b64encode]
    · have hrest : rest.length ≤ n := by
        simp at hlen
        omega
      have := ih rest hrest
      simp only [b64encode, List.length_cons]
      omega

theorem b64decodeVals_encode : ∀ (n : Nat) (bs : List Nat), bs.length ≤ n →
    (∀ b ∈ bs, b < 256) →
    b64decodeVals
        (((b64encode bs).takeWhile (fun c => decide (c ≠ 61))).filterMap b64Val?)
      = some bs := by
  intro n
  induction n with
  | zero =>
    intro bs hlen _
    cases bs with
    | nil => rfl
    | cons a l => simp at hlen
  | succ n ih =>
    intro bs hlen hb
    rcases bs with _ | ⟨b0, _ | ⟨b1, _ | ⟨b2, rest⟩⟩⟩
    · rfl
    · have h0 : b0 < 256 := hb b0 (by simp)
      simp [b64encode, List.takeWhile_cons, List.filterMap_cons,
        (b64Char_spec _ (show b0 / 4 < 64 by omega)).2,
        (b64Char_spec _ (show b0 % 4 * 16 < 64 by omega)).2,
        b64val_char _ (show b0 / 4 < 64 by omega),
        b64val_char _ (show b0 % 4 * 16 < 64 by omega), b64decodeVals]
      omega
    · have h0 : b0 < 256 := hb b0 (by simp)
      have h1 : b1 < 256 := hb b1 (by simp)
      simp [b64encode, List.takeWhile_cons, List.filterMap_cons,
        (b64Char_spec _ (show b0 / 4 < 64 by omega)).2,
        (b64Char_spec _ (show b0 % 4 * 16 + b1 / 16 < 64 by omega)).2,
        (b64Char_spec _ (show b1 % 16 * 4 < 64 by omega)).2,
        b64val_char _ (show b0 / 4 < 64 by omega),
        b64val_char _ (show b0 % 4 * 16 + b1 / 16 < 64 by omega),
        b64val_char _ (show b1 % 16 * 4 < 64 by omega), b64decodeVals]
      omega
    · have h0 : b0 < 256 := hb b0 (by simp)
      have h1 : b1 < 256 := hb b1 (by simp)
      have h2 : b2 < 256 := hb b2 (by simp)
      have hrest : rest.length ≤ n := by
        simp at hlen
        omega
      have ihr := ih rest hrest (fun b hmem => hb b (by simp [hmem]))
      simp [b64encode, List.takeWhile_cons, List.filterMap_cons,
        (b64Char_spec _ (show b0 / 4 < 64 by omega)).2,
        (b64Char_spec _ (show b0 % 4 * 16 + b1 / 16 < 64 by omega)).2,
        (b64Char_spec _ (show b1 % 16 * 4 + b2 / 64 < 64 by omega)).2,
        (b64Char_spec _ (show b2 % 64 < 64 by omega)).2,
        b64val_char _ (show b0 / 4 < 64 by omega),
        b64val_char _ (show b0 % 4 * 16 + b1 / 16 < 64 by omega),
        b64val_char _ (show b1 % 16 * 4 + b2 / 64 < 64 by omega),
        b64val_char _ (show b2 % 64 < 64 by omega), b64decodeVals] at ihr ⊢
      rw [ihr]
      simp
      omega

/-- Urlsafe base64 round trip on byte strings. -/
theorem b64_roundtrip (bs : List Nat) (hb : ∀ b ∈ bs, b < 256) :
    b64decode (b64encode bs) = some bs := by
  unfold b64decode
  rw [b64encode_filter bs.length bs le_rfl hb]
  rw [if_neg (by rw [b64encode_length bs.length bs le_rfl]; omega)]
  exact b64decodeVals_encode bs.length bs le_rfl hb

/-! ## Codec lemmas: UTF-8 on ASCII text -/

theorem utf8Encode_ascii : ∀ (cps : List Nat), (∀ c ∈ cps, c < 128) →
    utf8Encode cps = cps := by
  intro cps
  induction cps with
  | nil => intro _; rfl
  | cons c rest ih =>
    intro h
    have hc : c < 128 := h c (by simp)
    have hr := ih (fun x hx => h x (by simp [hx]))
    have hstep : utf8Encode (c :: rest) = utf8EncodeChar c ++ utf8Encode rest := rfl
    rw [hstep, hr, utf8EncodeChar, if_pos hc]
    rfl

theorem utf8DecodeAux_ascii : ∀ (n : Nat) (cps : List Nat), cps.length ≤ n →
    (∀ c ∈ cps, c < 128) → utf8DecodeAux n cps = some cps := by
  intro n
  induction n with
  | zero =>
    intro cps hlen _
    cases cps with
    | nil => rfl
    | cons a l => simp at hlen
  | succ n ih =>
    intro cps hlen h
    cases cps with
    | nil => rfl
    | cons c rest =>
      have hc : c < 128 := h c (by simp)
      have hr := ih rest (by simp at hlen; omega) (fun x hx => h x (by simp [hx]))
      rw [utf8DecodeAux, if_pos hc, hr]
      rfl

theorem utf8Decode_ascii (cps : List Nat) (h : ∀ c ∈ cps, c < 128) :
    utf8Decode cps = some cps :=
  utf8DecodeAux_ascii cps.length cps le_rfl h

/-! ## Codec lemmas: JSON string escaping round trip -/

theorem hexVal?_hexDigit : ∀ d, d < 16 → hexVal? (hexDigit d) = some d := by
  decide

theorem hexDigit_lt : ∀ d, d < 16 → hexDigit d < 128 := by decide

theorem hex4_mem (n x : Nat) (hx : x ∈ hex4 n) : x < 128 := by
  simp only [hex4, List.mem_cons, List.not_mem_nil, or_false] at hx
  rcases hx with h | h | h | h <;> subst h <;> exact hexDigit_lt _ (by omega)

set_option maxRecDepth 4000 in
/-- Every byte `ensure_ascii` escaping emits is ASCII. -/
theorem jsonEscapeChar_ascii (c x : Nat) (hx : x ∈ jsonEscapeChar c) :
    x < 128 := by
  unfold jsonEscapeChar at hx
  by_cases h1 : c = 34
  · rw [if_pos h1] at hx
    simp only [List.mem_cons, List.not_mem_nil, or_false] at hx
    rcases hx with h | h <;> omega
  rw [if_neg h1] at hx
  by_cases h2 : c = 92
  · rw [if_pos h2] at hx
    simp only [List.mem_cons, List.not_mem_nil, or_false] at hx
    rcases hx with h | h <;> omega
  rw [if_neg h2] at hx
  by_cases h3 : c = 8
  · rw [if_pos h3] at hx
    simp only [List.mem_cons, List.not_mem_nil, or_false] at hx
    rcases hx with h | h <;> omega
  rw [if_neg h3] at hx
  by_cases h4 : c = 9
  · rw [if_pos h4] at hx
    simp only [List.mem_cons, List.not_mem_nil, or_false] at hx
    rcases hx with h | h <;> omega
  rw [if_neg h4] at hx
  by_cases h5 : c = 10
  · rw [if_pos h5] at hx
    simp only [List.mem_cons, List.not_mem_nil, or_false] at hx
    rcases hx with h | h <;> omega
  rw [if_neg h5] at hx
  by_cases h6 : c = 12
  · rw [if_pos h6] at hx
    simp only [List.mem_cons, List.not_mem_nil, or_false] at hx
    rcases hx with h | h <;> omega
  rw [if_neg h6] at hx
  by_cases h7 : c = 13
  · rw [if_pos h7] at hx
    simp only [List.mem_cons, List.not_mem_nil, or_false] at hx
    rcases hx with h | h <;> omega
  rw [if_neg h7] at hx
  by_cases h8 : c < 32
  · rw [if_pos h8] at hx
    simp only [hex4, List.mem_cons, List.not_mem_nil, or_false] at hx
    rcases hx with h | h | h | h | h | h
    · omega
    · omega
    · rw [h]; exact hexDigit_lt _ (by omega)
    · rw [h]; exact hexDigit_lt _ (by omega)
    · rw [h]; exact hexDigit_lt _ (by omega)
    · rw [h]; exact hexDigit_lt _ (by omega)
  rw [if_neg h8] at hx
  by_cases h9 : c ≤ 126
  · rw [if_pos h9] at hx
    simp only [List.mem_cons, List.not_mem_nil, or_false] at hx
    omega
  rw [if_neg h9] at hx
  by_cases h10 : c < 65536
  · rw [if_pos h10] at hx
    simp only [hex4, List.mem_cons, List.not_mem_nil, or_false] at hx
    rcases hx with h | h | h | h | h | h
    · omega
    · omega
    · rw [h]; exact hexDigit_lt _ (by omega)
    · rw [h]; exact hexDigit_lt _ (by omega)
    · rw [h]; exact hexDigit_lt _ (by omega)
    · rw [h]; exact hexDigit_lt _ (by omega)
  rw [if_neg h10] at hx
  simp only [hex4, List.cons_append, List.nil_append, List.mem_cons,
    List.mem_append, List.not_mem_nil, or_false] at hx
  rcases hx with h | h | h | h | h | h | h | h | h | h | h | h
  · omega
  · omega
  · rw [h]; exact hexDigit_lt _ (by omega)
  · rw [h]; exact hexDigit_lt _ (by omega)
  · rw [h]; exact hexDigit_lt _ (by omega)
  · rw [h]; exact hexDigit_lt _ (by omega)
  · omega
  · omega
  · rw [h]; exact hexDigit_lt _ (by omega)
  · rw [h]; exact hexDigit_lt _ (by omega)
  · rw [h]; exact hexDigit_lt _ (by omega)
  · rw [h]; exact hexDigit_lt _ (by omega)

theorem escBody_cons (c : Nat) (s : List Nat) :
    escBody (c :: s) = jsonEscapeChar c ++ escBody s := rfl

theorem unitsOf_cons (c : Nat) (s : List Nat) :
    unitsOf (c :: s) = escUnits c ++ unitsOf s := rfl

/-- A `\u` escape whose four hex digits were produced by `hex4` scans
back to the escaped value. -/
theorem parseEscape_u (c : Nat) (tl : List Nat) (h : c < 65536) :
    parseEscape 117 (hex4 c ++ tl) = some (c, tl) := by
  have h1 := hexVal?_hexDigit (c / 4096 % 16) (by omega)
  have h2 := hexVal?_hexDigit (c / 256 % 16) (by omega)
  have h3 := hexVal?_hexDigit (c / 16 % 16) (by omega)
  have h4 := hexVal?_hexDigit (c % 16) (by omega)
  simp [parseEscape, hex4, h1, h2, h3, h4]
  omega

/-- One scanner step across a backslash escape. -/
theorem parseStringAux_esc_step (m e u : Nat) (tl tl2 : List Nat)
    (he : parseEscape e tl = some (u, tl2)) :
    parseStringAux (m + 1) (92 :: e :: tl)
      = (parseStringAux m tl2).map fun p => (u :: p.1, p.2) := by
  show (match parseEscape e tl with
    | none => none
    | some (u2, r2) => (parseStringAux m r2).map fun p => (u2 :: p.1, p.2))
      = (parseStringAux m tl2).map fun p => (u :: p.1, p.2)
  rw [he]

/-- One scanner step across an unescaped printable character. -/
theorem parseStringAux_plain (m c : Nat) (tl : List Nat) (h34 : c ≠ 34)
    (h92 : c ≠ 92) (h32 : 32 ≤ c) :
    parseStringAux (m + 1) (c :: tl)
      = (parseStringAux m tl).map fun p => (c :: p.1, p.2) := by
  show (if c = 34 then some ([], tl)
    else if c = 92 then
      match tl with
      | [] => none
      | e :: r =>
        match parseEscape e r with
        | none => none
        | some (u, r2) => (parseStringAux m r2).map fun p => (u :: p.1, p.2)
    else if c < 32 then none
    else (parseStringAux m tl).map fun p => (c :: p.1, p.2))
      = (parseStringAux m tl).map fun p => (c :: p.1, p.2)
  rw [if_neg h34, if_neg h92, if_neg (by omega)]

/-- Scanner step across a short two-character escape. -/
theorem escBody_step_short (n c e : Nat) (s rest : List Nat)
    (hj : jsonEscapeChar c = [92, e])
    (he : ∀ tl : List Nat, parseEscape e tl = some (c, tl))
    (hc : c < 65536)
    (hn : (jsonEscapeChar c ++ escBody s).length < n)
    (hrec : ∀ m, (escBody s).length < m →
      parseStringAux m (escBody s ++ 34 :: rest) = some (unitsOf s, rest)) :
    parseStringAux n ((jsonEscapeChar c ++ escBody s) ++ 34 :: rest)
      = some (escUnits c ++ unitsOf s, rest) := by
  rw [hj] at hn ⊢
  have hn2 : (escBody s).length + 2 ≤ n := by
    simp only [List.length_append, List.length_cons, List.length_nil] at hn
    omega
  obtain ⟨m, rfl⟩ : ∃ m, n = m + 1 := ⟨n - 1, by omega⟩
  rw [show ([92, e] ++ escBody s) ++ 34 :: rest
      = 92 :: e :: (escBody s ++ 34 :: rest) from rfl]
  rw [parseStringAux_esc_step m e c _ _ (he _)]
  rw [hrec m (by omega), escUnits, if_pos hc]
  rfl

/-- Scanner step across a `\uXXXX` escape of a BMP code point. -/
theorem escBody_step_u (n c : Nat) (s rest : List Nat)
    (hj : jsonEscapeChar c = 92 :: 117 :: hex4 c)
    (hc : c < 65536)
    (hn : (jsonEscapeChar c ++ escBody s).length < n)
    (hrec : ∀ m, (escBody s).length < m →
      parseStringAux m (escBody s ++ 34 :: rest) = some (unitsOf s, rest)) :
    parseStringAux n ((jsonEscapeChar c ++ escBody s) ++ 34 :: rest)
      = some (escUnits c ++ unitsOf s, rest) := by
  rw [hj] at hn ⊢
  have hn2 : (escBody s).length + 2 ≤ n := by
    simp only [hex4, List.cons_append, List.length_append, List.length_cons,
      List.length_nil] at hn
    omega
  obtain ⟨m, rfl⟩ : ∃ m, n = m + 1 := ⟨n - 1, by omega⟩
  rw [show ((92 :: 117 :: hex4 c) ++ escBody s) ++ 34 :: rest
      = 92 :: 117 :: (hex4 c ++ (escBody s ++ 34 :: rest)) by simp]
  rw [parseStringAux_esc_step m 117 c _ _ (parseEscape_u c _ hc)]
  rw [hrec m (by omega), escUnits, if_pos hc]
  rfl

/-- Scanner steps across the surrogate-pair double escape of an astral
code point. -/
theorem escBody_step_astral (n c : Nat) (s rest : List Nat)
    (hge : 65536 ≤ c) (hlt : c < 1114112)
    (hj : jsonEscapeChar c = 92 :: 117 :: hex4 (55296 + (c - 65536) / 1024) ++
      (92 :: 117 :: hex4 (56320 + (c - 65536) % 1024)))
    (hn : (jsonEscapeChar c ++ escBody s).length < n)
    (hrec : ∀ m, (escBody s).length < m →
      parseStringAux m (escBody s ++ 34 :: rest) = some (unitsOf s, rest)) :
    parseStringAux n ((jsonEscapeChar c ++ escBody s) ++ 34 :: rest)
      = some (escUnits c ++ unitsOf s, rest) := by
  rw [hj] at hn ⊢
  have hn2 : (escBody s).length + 3 ≤ n := by
    simp only [hex4, List.cons_append, List.length_append, List.length_cons,
      List.length_nil] at hn
    omega
  obtain ⟨m, rfl⟩ : ∃ m, n = m + 1 + 1 := ⟨n - 2, by omega⟩
  rw [show ((92 :: 117 :: hex4 (55296 + (c - 65536) / 1024) ++
        (92 :: 117 :: hex4 (56320 + (c - 65536) % 1024))) ++ escBody s) ++ 34 :: rest
      = 92 :: 117 :: (hex4 (55296 + (c - 65536) / 1024) ++
        (92 :: 117 :: (hex4 (56320 + (c - 65536) % 1024) ++
          (escBody s ++ 34 :: rest)))) by simp]
  rw [parseStringAux_esc_step (m + 1) 117 _ _ _
    (parseEscape_u (55296 + (c - 65536) / 1024)
      (92 :: 117 :: (hex4 (56320 + (c - 65536) % 1024) ++ (escBody s ++ 34 :: rest)))
      (by omega))]
  rw [parseStringAux_esc_step m 117 _ _ _
    (parseEscape_u (56320 + (c - 65536) % 1024) (escBody s ++ 34 :: rest)
      (by omega))]
  rw [hrec m (by omega), escUnits, if_neg (by omega)]
  rfl

/-- The scanner recovers the UTF-16 escape units of `escBody s` and
stops exactly at the closing quote. -/
theorem parseStringAux_escBody : ∀ (s : List Nat) (n : Nat) (rest : List Nat),
    ScalarCps s → (escBody s).length < n →
    parseStringAux n (escBody s ++ 34 :: rest) = some (unitsOf s, rest) := by
  intro s
  induction s with
  | nil =>
    intro n rest _ hn
    obtain ⟨m, rfl⟩ : ∃ m, n = m + 1 := ⟨n - 1, by omega⟩
    rfl
  | cons c s ih =>
    intro n rest hsc hn
    obtain ⟨hlt, -⟩ := hsc c (List.mem_cons_self c s)
    have hs : ScalarCps s := fun x hx => hsc x (List.mem_cons_of_mem c hx)
    rw [escBody_cons] at hn ⊢
    rw [unitsOf_cons]
    have hrec : ∀ m, (escBody s).length < m →
        parseStringAux m (escBody s ++ 34 :: rest) = some (unitsOf s, rest) :=
      fun m hm => ih m rest hs hm
    by_cases h1 : c = 34
    · subst h1
      exact escBody_step_short n 34 34 s rest rfl (fun _ => rfl) (by omega) hn hrec
    by_cases h2 : c = 92
    · subst h2
      exact escBody_step_short n 92 92 s rest rfl (fun _ => rfl) (by omega) hn hrec
    by_cases h3 : c = 8
    · subst h3
      exact escBody_step_short n 8 98 s rest rfl (fun _ => rfl) (by omega) hn hrec
    by_cases h4 : c = 9
    · subst h4
      exact escBody_step_short n 9 116 s rest rfl (fun _ => rfl) (by omega) hn hrec
    by_cases h5 : c = 10
    · subst h5
      exact escBody_step_short n 10 110 s rest rfl (fun _ => rfl) (by omega) hn hrec
    by_cases h6 : c = 12
    · subst h6
      exact escBody_step_short n 12 102 s rest rfl (fun _ => rfl) (by omega) hn hrec
    by_cases h7 : c = 13
    · subst h7
      exact escBody_step_short n 13 114 s rest rfl (fun _ => rfl) (by omega) hn hrec
    by_cases h8 : c < 32
    · have hj : jsonEscapeChar c = 92 :: 117 :: hex4 c := by
        unfold jsonEscapeChar
        rw [if_neg h1, if_neg h2, if_neg h3, if_neg h4, if_neg h5, if_neg h6,
          if_neg h7, if_pos h8]
      exact escBody_step_u n c s rest hj (by omega) hn hrec
    by_cases h9 : c ≤ 126
    · have hj : jsonEscapeChar c = [c] := by
        unfold jsonEscapeChar
        rw [if_neg h1, if_neg h2, if_neg h3, if_neg h4, if_neg h5, if_neg h6,
          if_neg h7, if_neg h8, if_pos h9]
      rw [hj] at hn ⊢
      have hn2 : (escBody s).length + 2 ≤ n := by
        simp only [List.length_append, List.length_cons, List.length_nil] at hn
        omega
      obtain ⟨m, rfl⟩ : ∃ m, n = m + 1 := ⟨n - 1, by omega⟩
      rw [show ([c] ++ escBody s) ++ 34 :: rest = c :: (escBody s ++ 34 :: rest)
        from rfl]
      rw [parseStringAux_plain m c _ h1 h2 (by omega)]
      rw [hrec m (by omega), escUnits, if_pos (by omega)]
      rfl
    by_cases h10 : c < 65536
    · have hj : jsonEscapeChar c = 92 :: 117 :: hex4 c := by
        unfold jsonEscapeChar
        rw [if_neg h1, if_neg h2, if_neg h3, if_neg h4, if_neg h5, if_neg h6,
          if_neg h7, if_neg h8, if_neg h9, if_pos h10]
      exact escBody_step_u n c s rest hj h10 hn hrec
    · have hj : jsonEscapeChar c = 92 :: 117 :: hex4 (55296 + (c - 65536) / 1024) ++
          (92 :: 117 :: hex4 (56320 + (c - 65536) % 1024)) := by
        unfold jsonEscapeChar
        rw [if_neg h1, if_neg h2, if_neg h3, if_neg h4, if_neg h5, if_neg h6,
          if_neg h7, if_neg h8, if_neg h9, if_neg h10]
      exact escBody_step_astral n c s rest (by omega) hlt hj hn hrec

/-- A non-high-surrogate head passes through surrogate combination. -/
theorem combineSurrogates_cons (c : Nat) (t : List Nat)
    (hns : ¬ (55296 ≤ c ∧ c < 56320)) :
    combineSurrogates (c :: t) = c :: combineSurrogates t := by
  cases t with
  | nil => rfl
  | cons l rest =>
    show (if 55296 ≤ c ∧ c < 56320 ∧ 56320 ≤ l ∧ l < 57344 then
        (65536 + (c - 55296) * 1024 + (l - 56320)) :: combineSurrogates rest
      else c :: combineSurrogates (l :: rest)) = c :: combineSurrogates (l :: rest)
    rw [if_neg (by omega)]

/-- Surrogate combination inverts the UTF-16 unit expansion of a
scalar string. -/
theorem combineSurrogates_unitsOf : ∀ s : List Nat, ScalarCps s →
    combineSurrogates (unitsOf s) = s := by
  intro s
  induction s with
  | nil => intro; rfl
  | cons c s ih =>
    intro hsc
    obtain ⟨hlt, hns⟩ := hsc c (List.mem_cons_self c s)
    have hs : ScalarCps s := fun x hx => hsc x (List.mem_cons_of_mem c hx)
    rw [unitsOf_cons]
    by_cases hbmp : c < 65536
    · rw [show escUnits c = [c] by rw [escUnits, if_pos hbmp]]
      rw [show ([c] ++ unitsOf s : List Nat) = c :: unitsOf s from rfl]
      rw [combineSurrogates_cons c _ (by omega), ih hs]
    · rw [show escUnits c
          = [55296 + (c - 65536) / 1024, 56320 + (c - 65536) % 1024]
        by rw [escUnits, if_neg hbmp]]
      rw [show ([55296 + (c - 65536) / 1024, 56320 + (c - 65536) % 1024]
            ++ unitsOf s : List Nat)
          = (55296 + (c - 65536) / 1024) ::
            (56320 + (c - 65536) % 1024) :: unitsOf s from rfl]
      show (if 55296 ≤ 55296 + (c - 65536) / 1024 ∧
          55296 + (c - 65536) / 1024 < 56320 ∧
          56320 ≤ 56320 + (c - 65536) % 1024 ∧
          56320 + (c - 65536) % 1024 < 57344 then
          (65536 + (55296 + (c - 65536) / 1024 - 55296) * 1024 +
            (56320 + (c - 65536) % 1024 - 56320)) :: combineSurrogates (unitsOf s)
        else (55296 + (c - 65536) / 1024) ::
          combineSurrogates ((56320 + (c - 65536) % 1024) :: unitsOf s))
        = c :: s
      rw [if_pos ⟨by omega, by omega, by omega, by omega⟩]
      have hval : 65536 + (55296 + (c - 65536) / 1024 - 55296) * 1024 +
          (56320 + (c - 65536) % 1024 - 56320) = c := by omega
      rw [hval, ih hs]

/-- The whole string scanner applied to an escaped body with its
closing quote. -/
theorem parseStringUnits_escBody (s rest : List Nat) (hsc : ScalarCps s) :
    parseStringUnits (escBody s ++ 34 :: rest) = some (unitsOf s, rest) := by
  apply parseStringAux_escBody s _ rest hsc
  simp only [List.length_append, List.length_cons]
  omega

/-! ## JSON parser correctness on the serializer image, and the state codec claims -/

theorem skipWs_cons_nws (x : Nat) (l : List Nat) (h : jsonWs x = false) :
    skipWs (x :: l) = x :: l := by
  show (if jsonWs x then skipWs l else x :: l) = x :: l
  rw [h]
  rfl

theorem skipWs_cons_ws (x : Nat) (l : List Nat) (h : jsonWs x = true) :
    skipWs (x :: l) = skipWs l := by
  show (if jsonWs x then skipWs l else x :: l) = skipWs l
  rw [h]
  rfl

theorem takeWhile_append_stop (p : Nat → Bool) (c : Nat) (l2 : List Nat)
    (hc : p c = false) :
    ∀ l1 : List Nat, (∀ x ∈ l1, p x = true) →
      (l1 ++ c :: l2).takeWhile p = l1 := by
  intro l1
  induction l1 with
  | nil =>
    intro _
    simp [List.takeWhile_cons, hc]
  | cons a l1 ih =>
    intro h
    have ha : p a = true := h a (by simp)
    simp only [List.cons_append, List.takeWhile_cons, ha, if_true]
    rw [ih (fun x hx => h x (by simp [hx]))]

theorem dropWhile_append_stop (p : Nat → Bool) (c : Nat) (l2 : List Nat)
    (hc : p c = false) :
    ∀ l1 : List Nat, (∀ x ∈ l1, p x = true) →
      (l1 ++ c :: l2).dropWhile p = c :: l2 := by
  intro l1
  induction l1 with
  | nil =>
    intro _
    simp [List.dropWhile_cons, hc]
  | cons a l1 ih =>
    intro h
    have ha : p a = true := h a (by simp)
    simp only [List.cons_append, List.dropWhile_cons, ha, if_true]
    exact ih (fun x hx => h x (by simp [hx]))

theorem natDigitCps_digits (m : Nat) : ∀ x ∈ natDigitCps m, isDigitByte x = true := by
  intro x hx
  unfold natDigitCps at hx
  by_cases h : m = 0
  · rw [if_pos h] at hx
    simp at hx
    subst hx
    decide
  · rw [if_neg h] at hx
    simp only [List.mem_map, List.mem_reverse] at hx
    obtain ⟨d, hd, rfl⟩ := hx
    have : d < 10 := Nat.digits_lt_base (by norm_num) hd
    simp [isDigitByte]
    omega

theorem natDigitCps_ne_nil (m : Nat) : natDigitCps m ≠ [] := by
  unfold natDigitCps
  by_cases h : m = 0
  · rw [if_pos h]; simp
  · rw [if_neg h]
    simp [Nat.digits_ne_nil_iff_ne_zero.mpr h]

theorem natDigitCps_head (m d : Nat) (ds : List Nat)
    (h : natDigitCps m = d :: ds) : 48 ≤ d ∧ d ≤ 57 ∧ (ds ≠ [] → d ≠ 48) := by
  have hdig := natDigitCps_digits m d (by rw [h]; simp)
  simp only [isDigitByte, Bool.and_eq_true, decide_eq_true_eq] at hdig
  refine ⟨hdig.1, hdig.2, ?_⟩
  intro hds
  by_cases hm : m = 0
  · subst hm
    simp [natDigitCps] at h
    rw [h.2] at hds
    simp at hds
  · unfold natDigitCps at h
    rw [if_neg hm] at h
    have hnn : Nat.digits 10 m ≠ [] := Nat.digits_ne_nil_iff_ne_zero.mpr hm
    have hlast := Nat.getLast_digit_ne_zero 10 hm
    have hh : (Nat.digits 10 m).reverse.head? = some ((Nat.digits 10 m).getLast hnn) := by
      rw [List.head?_reverse]
      exact List.getLast?_eq_getLast _ hnn
    have hh2 : ((Nat.digits 10 m).reverse.map (fun d => d + 48)).head?
        = some ((Nat.digits 10 m).getLast hnn + 48) := by
      rw [List.head?_map, hh]
      rfl
    rw [h] at hh2
    simp at hh2
    omega

theorem digitsVal_natDigitCps (m : Nat) : digitsVal (natDigitCps m) = m := by
  by_cases h : m = 0
  · subst h; rfl
  · unfold natDigitCps digitsVal
    rw [if_neg h]
    rw [List.foldl_map, List.foldl_reverse]
    have key : ∀ L : List Nat, L.foldr (fun x y => y * 10 + (x + 48 - 48)) 0
        = Nat.ofDigits 10 L := by
      intro L
      induction L with
      | nil => simp [Nat.ofDigits_nil]
      | cons d L ih =>
        rw [List.foldr_cons, ih, Nat.ofDigits_cons]
        simp
        ring
    rw [key]
    exact_mod_cast Nat.ofDigits_digits 10 m

theorem parseNumber_serInt (n : Int) (c : Nat) (tl : List Nat)
    (hc : c = 44 ∨ c = 125) :
    parseNumber (serInt n ++ c :: tl) = some (.jint n, c :: tl) := by
  obtain ⟨d, ds, hD⟩ := List.exists_cons_of_ne_nil (natDigitCps_ne_nil n.natAbs)
  obtain ⟨hd1, hd2, hd3⟩ := natDigitCps_head n.natAbs d ds hD
  have hstop : isDigitByte c = false := by rcases hc with rfl | rfl <;> decide
  have hc46 : ¬ (c = 46) := by rcases hc with rfl | rfl <;> omega
  have hc101 : ¬ (c = 101) := by rcases hc with rfl | rfl <;> omega
  have hc69 : ¬ (c = 69) := by rcases hc with rfl | rfl <;> omega
  have htake : (natDigitCps n.natAbs ++ c :: tl).takeWhile isDigitByte
      = natDigitCps n.natAbs :=
    takeWhile_append_stop _ c tl hstop _ (natDigitCps_digits _)
  have hdrop : (natDigitCps n.natAbs ++ c :: tl).dropWhile isDigitByte = c :: tl :=
    dropWhile_append_stop _ c tl hstop _ (natDigitCps_digits _)
  have hdv : digitsVal (d :: ds) = n.natAbs := by
    rw [← hD]; exact digitsVal_natDigitCps _
  have hlz : ¬((d :: ds : List Nat).length > 1 ∧
      (d :: ds : List Nat).headD 0 = 48) := by
    rintro ⟨hl, hh⟩
    simp only [List.headD_cons] at hh
    cases ds with
    | nil => simp at hl
    | cons a as => exact hd3 (by simp) hh
  have hlz2 : ¬(ds.length + 1 > 1 ∧ d = 48) := by
    rintro ⟨hl, hh⟩
    cases ds with
    | nil => simp at hl
    | cons a as => exact hd3 (by simp) hh
  rw [hD] at htake hdrop
  simp only [List.cons_append] at htake hdrop
  by_cases hneg : n < 0
  · have hser : serInt n = 45 :: natDigitCps n.natAbs := by
      unfold serInt; rw [if_pos hneg]
    rw [hser, hD]
    simp only [parseNumber, List.cons_append, List.headD_cons, List.tail_cons,
      htake, hdrop, hlz, hdv, hc46, hc101, hc69, if_true, if_false,
      List.length_cons, Nat.add_zero, Nat.zero_add]
    simp [hlz2]
    refine ⟨fun hlen => hd3 (List.length_pos.mp hlen), by rw [abs_of_neg hneg, neg_neg], ?_⟩
    rw [show 1 + (ds.length + 1) = ds.length + 1 + 1 from by omega]
    show List.drop ds.length (ds ++ c :: tl) = c :: tl
    exact List.drop_left ds (c :: tl)
  · have hser : serInt n = natDigitCps n.natAbs := by
      unfold serInt; rw [if_neg hneg]
    rw [hser, hD]
    have h45 : ¬ (d = 45) := by omega
    simp only [parseNumber, List.cons_append, List.headD_cons, List.tail_cons,
      htake, hdrop, hlz, hdv, h45, hc46, hc101, hc69, if_true, if_false,
      List.length_cons, Nat.add_zero, Nat.zero_add]
    simp [hlz2]
    exact ⟨fun hlen => hd3 (List.length_pos.mp hlen), by omega⟩

theorem parseVal_cons (fuel : Nat) (c : Nat) (rest : List Nat)
    (hws : jsonWs c = false) :
    parseVal (fuel + 1) (c :: rest)
      = (if c = 34 then
          (parseStringUnits rest).map fun p => (JVal.jstr (combineSurrogates p.1), p.2)
        else if c = 123 then
          (match skipWs rest with
           | 125 :: r => some (JVal.jobj [], r)
           | other => (parseMembers fuel other []).map fun (p : List (List Nat × JVal) × List Nat) => (JVal.jobj p.1, p.2))
        else if c = 91 then
          (match skipWs rest with
           | 93 :: r => some (JVal.jarr [], r)
           | other => (parseElems fuel other []).map fun (p : List JVal × List Nat) => (JVal.jarr p.1, p.2))
        else if (c :: rest).take 4 = [110, 117, 108, 108] then
          some (JVal.jnull, (c :: rest).drop 4)
        else if (c :: rest).take 4 = [116, 114, 117, 101] then
          some (JVal.jbool true, (c :: rest).drop 4)
        else if (c :: rest).take 5 = [102, 97, 108, 115, 101] then
          some (JVal.jbool false, (c :: rest).drop 5)
        else if (c :: rest).take 3 = [78, 97, 78] then
          some (JVal.jnum [78, 97, 78], (c :: rest).drop 3)
        else if (c :: rest).take 8 = [73, 110, 102, 105, 110, 105, 116, 121] then
          some (JVal.jnum [73, 110, 102, 105, 110, 105, 116, 121], (c :: rest).drop 8)
        else if (c :: rest).take 9 = [45, 73, 110, 102, 105, 110, 105, 116, 121] then
          some (JVal.jnum [45, 73, 110, 102, 105, 110, 105, 116, 121],
            (c :: rest).drop 9)
        else parseNumber (c :: rest)) := by
  have h2 : skipWs (c :: rest) = c :: rest := skipWs_cons_nws c rest hws
  show (match skipWs (c :: rest) with
    | [] => none
    | c2 :: rest2 =>
      if c2 = 34 then
        (parseStringUnits rest2).map fun (p : List Nat × List Nat) => (JVal.jstr (combineSurrogates p.1), p.2)
      else if c2 = 123 then
        (match skipWs rest2 with
         | 125 :: r => some (JVal.jobj [], r)
         | other => (parseMembers fuel other []).map fun (p : List (List Nat × JVal) × List Nat) => (JVal.jobj p.1, p.2))
      else if c2 = 91 then
        (match skipWs rest2 with
         | 93 :: r => some (JVal.jarr [], r)
         | other => (parseElems fuel other []).map fun (p : List JVal × List Nat) => (JVal.jarr p.1, p.2))
      else if (c2 :: rest2).take 4 = [110, 117, 108, 108] then
        some (JVal.jnull, (c2 :: rest2).drop 4)
      else if (c2 :: rest2).take 4 = [116, 114, 117, 101] then
        some (JVal.jbool true, (c2 :: rest2).drop 4)
      else if (c2 :: rest2).take 5 = [102, 97, 108, 115, 101] then
        some (JVal.jbool false, (c2 :: rest2).drop 5)
      else if (c2 :: rest2).take 3 = [78, 97, 78] then
        some (JVal.jnum [78, 97, 78], (c2 :: rest2).drop 3)
      else if (c2 :: rest2).take 8 = [73, 110, 102, 105, 110, 105, 116, 121] then
        some (JVal.jnum [73, 110, 102, 105, 110, 105, 116, 121], (c2 :: rest2).drop 8)
      else if (c2 :: rest2).take 9 = [45, 73, 110, 102, 105, 110, 105, 116, 121] then
        some (JVal.jnum [45, 73, 110, 102, 105, 110, 105, 116, 121],
          (c2 :: rest2).drop 9)
      else parseNumber (c2 :: rest2)) = _
  rw [h2]


theorem parseVal_ws (fuel : Nat) (w : Nat) (l : List Nat)
    (hw : jsonWs w = true) :
    parseVal (fuel + 1) (w :: l) = parseVal (fuel + 1) l := by
  have h2 : skipWs (w :: l) = skipWs l := skipWs_cons_ws w l hw
  show (match skipWs (w :: l) with
    | [] => none
    | c2 :: rest2 =>
      if c2 = 34 then
        (parseStringUnits rest2).map fun (p : List Nat × List Nat) => (JVal.jstr (combineSurrogates p.1), p.2)
      else if c2 = 123 then
        (match skipWs rest2 with
         | 125 :: r => some (JVal.jobj [], r)
         | other => (parseMembers fuel other []).map fun (p : List (List Nat × JVal) × List Nat) => (JVal.jobj p.1, p.2))
      else if c2 = 91 then
        (match skipWs rest2 with
         | 93 :: r => some (JVal.jarr [], r)
         | other => (parseElems fuel other []).map fun (p : List JVal × List Nat) => (JVal.jarr p.1, p.2))
      else if (c2 :: rest2).take 4 = [110, 117, 108, 108] then
        some (JVal.jnull, (c2 :: rest2).drop 4)
      else if (c2 :: rest2).take 4 = [116, 114, 117, 101] then
        some (JVal.jbool true, (c2 :: rest2).drop 4)
      else if (c2 :: rest2).take 5 = [102, 97, 108, 115, 101] then
        some (JVal.jbool false, (c2 :: rest2).drop 5)
      else if (c2 :: rest2).take 3 = [78, 97, 78] then
        some (JVal.jnum [78, 97, 78], (c2 :: rest2).drop 3)
      else if (c2 :: rest2).take 8 = [73, 110, 102, 105, 110, 105, 116, 121] then
        some (JVal.jnum [73, 110, 102, 105, 110, 105, 116, 121], (c2 :: rest2).drop 8)
      else if (c2 :: rest2).take 9 = [45, 73, 110, 102, 105, 110, 105, 116, 121] then
        some (JVal.jnum [45, 73, 110, 102, 105, 110, 105, 116, 121],
          (c2 :: rest2).drop 9)
      else parseNumber (c2 :: rest2)) = parseVal (fuel + 1) l
  rw [h2]
  rfl

theorem parseVal_jstr (fuel : Nat) (s tl : List Nat) (hs : ScalarCps s) :
    parseVal (fuel + 1) (serStr s ++ tl) = some (JVal.jstr s, tl) := by
  rw [show serStr s ++ tl = 34 :: (escBody s ++ 34 :: tl) by simp [serStr]]
  have hred : parseVal (fuel + 1) (34 :: (escBody s ++ 34 :: tl))
      = (parseStringUnits (escBody s ++ 34 :: tl)).map
          fun p => (JVal.jstr (combineSurrogates p.1), p.2) := rfl
  rw [hred, parseStringUnits_escBody s tl hs]
  show some (JVal.jstr (combineSurrogates (unitsOf s)), tl) = some (JVal.jstr s, tl)
  rw [combineSurrogates_unitsOf s hs]

theorem dictInsert_append (acc : List (List Nat × JVal)) (k : List Nat)
    (v : JVal) (h : ∀ kv ∈ acc, kv.1 ≠ k) :
    dictInsert acc k v = acc ++ [(k, v)] := by
  induction acc with
  | nil => rfl
  | cons kv0 acc ih =>
    show (if kv0.1 = k then (kv0.1, v) :: acc else
      (kv0.1, kv0.2) :: dictInsert acc k v) = kv0 :: acc ++ [(k, v)]
    rw [if_neg (h kv0 (by simp))]
    rw [ih (fun kv hkv => h kv (by simp [hkv]))]
    rfl

theorem parseVal_jint (fuel : Nat) (n : Int) (c : Nat) (tl : List Nat)
    (hc : c = 44 ∨ c = 125) :
    parseVal (fuel + 1) (serInt n ++ c :: tl) = some (.jint n, c :: tl) := by
  obtain ⟨d, ds, hD⟩ := List.exists_cons_of_ne_nil (natDigitCps_ne_nil n.natAbs)
  obtain ⟨hd1, hd2, -⟩ := natDigitCps_head n.natAbs d ds hD
  by_cases hneg : n < 0
  · have hser : serInt n ++ c :: tl = 45 :: (natDigitCps n.natAbs ++ c :: tl) := by
      unfold serInt
      rw [if_pos hneg]
      rfl
    rw [hser]
    rw [parseVal_cons fuel 45 _ rfl]
    rw [if_neg (by omega), if_neg (by omega), if_neg (by omega)]
    rw [if_neg (by intro h; injection h with h1 h2; omega)]
    rw [if_neg (by intro h; injection h with h1 h2; omega)]
    rw [if_neg (by intro h; injection h with h1 h2; omega)]
    rw [if_neg (by intro h; injection h with h1 h2; omega)]
    rw [if_neg (by intro h; injection h with h1 h2; omega)]
    rw [if_neg (by
      intro h
      injection h with h1 h2
      rw [hD, List.cons_append] at h2
      injection h2 with h3 h4
      omega)]
    rw [← hser]
    exact parseNumber_serInt n c tl hc
  · have hser : serInt n ++ c :: tl = natDigitCps n.natAbs ++ c :: tl := by
      unfold serInt
      rw [if_neg hneg]
    rw [hser, hD, List.cons_append]
    have hws : jsonWs d = false := by
      simp [jsonWs]
      omega
    rw [parseVal_cons fuel d _ hws]
    rw [if_neg (by omega), if_neg (by omega), if_neg (by omega)]
    rw [if_neg (by intro h; injection h with h1 h2; omega)]
    rw [if_neg (by intro h; injection h with h1 h2; omega)]
    rw [if_neg (by intro h; injection h with h1 h2; omega)]
    rw [if_neg (by intro h; injection h with h1 h2; omega)]
    rw [if_neg (by intro h; injection h with h1 h2; omega)]
    rw [if_neg (by intro h; injection h with h1 h2; omega)]
    rw [← List.cons_append, ← hD, ← hser]
    exact parseNumber_serInt n c tl hc

theorem parseVal_serScalar (fuel : Nat) (v : JVal) (hv : GoodVal v) (c : Nat)
    (tl : List Nat) (hc : c = 44 ∨ c = 125) :
    parseVal (fuel + 1) (serScalar v ++ c :: tl) = some (v, c :: tl) := by
  cases v with
  | jstr s => exact parseVal_jstr fuel s (c :: tl) hv
  | jint n => exact parseVal_jint fuel n c tl hc
  | jnull => exact hv.elim
  | jbool b => exact hv.elim
  | jnum raw => exact hv.elim
  | jarr xs => exact hv.elim
  | jobj fs => exact hv.elim

theorem serMembers_cons (kv : List Nat × JVal) (rest : List (List Nat × JVal))
    (hr : rest ≠ []) :
    serMembers (kv :: rest) = serField kv ++ [44, 32] ++ serMembers rest := by
  cases rest with
  | nil => exact absurd rfl hr
  | cons a b => rfl

theorem serField_append (k : List Nat) (v : JVal) (X : List Nat) :
    serField (k, v) ++ X
      = 34 :: (escBody k ++ 34 :: 58 :: 32 :: (serScalar v ++ X)) := by
  simp [serField, serStr]

theorem parseMembers_red (fuel : Nat) (acc : List (List Nat × JVal))
    (rest : List Nat) :
    parseMembers (fuel + 1) (34 :: rest) acc
      = (match parseStringUnits rest with
        | none => none
        | some (u, r1) =>
          match skipWs r1 with
          | 58 :: r2 =>
            match parseVal fuel r2 with
            | none => none
            | some (v, r3) =>
              match skipWs r3 with
              | 44 :: r4 => parseMembers fuel (skipWs r4)
                  (dictInsert acc (combineSurrogates u) v)
              | 125 :: r4 => some (dictInsert acc (combineSurrogates u) v, r4)
              | _ => none
          | _ => none) := rfl

theorem parseMembers_ser : ∀ (fields : List (List Nat × JVal)) (fuel : Nat)
    (acc : List (List Nat × JVal)) (tl : List Nat),
    fields ≠ [] →
    fields.length ≤ fuel →
    (∀ kv ∈ fields, ScalarCps kv.1 ∧ GoodVal kv.2) →
    (∀ kv ∈ fields, ∀ kv2 ∈ acc, kv2.1 ≠ kv.1) →
    List.Pairwise (fun a b => a.1 ≠ b.1) fields →
    parseMembers (fuel + 1) (serMembers fields ++ 125 :: tl) acc
      = some (acc ++ fields, tl) := by
  intro fields
  induction fields with
  | nil => intro fuel acc tl hne; exact absurd rfl hne
  | cons kv rest ih =>
    intro fuel acc tl hne hlen hgood hdisj hpw
    obtain ⟨k, v⟩ := kv
    have hk : ScalarCps k := (hgood (k, v) (by simp)).1
    have hv : GoodVal v := (hgood (k, v) (by simp)).2
    obtain ⟨f, rfl⟩ : ∃ f, fuel = f + 1 := ⟨fuel - 1, by
      simp only [List.length_cons] at hlen
      omega⟩
    cases rest with
    | nil =>
      rw [show serMembers [(k, v)] = serField (k, v) from rfl]
      rw [serField_append]
      rw [parseMembers_red]
      rw [parseStringUnits_escBody k _ hk]
      show (match parseVal (f + 1) (32 :: (serScalar v ++ 125 :: tl)) with
        | none => none
        | some (v2, r3) =>
          match skipWs r3 with
          | 44 :: r4 => parseMembers (f + 1) (skipWs r4)
              (dictInsert acc (combineSurrogates (unitsOf k)) v2)
          | 125 :: r4 => some (dictInsert acc (combineSurrogates (unitsOf k)) v2, r4)
          | _ => none) = some (acc ++ [(k, v)], tl)
      rw [parseVal_ws f 32 _ rfl, parseVal_serScalar f v hv 125 tl (Or.inr rfl)]
      show some (dictInsert acc (combineSurrogates (unitsOf k)) v, tl)
        = some (acc ++ [(k, v)], tl)
      rw [combineSurrogates_unitsOf k hk]
      rw [dictInsert_append acc k v (fun kv2 hkv2 => hdisj (k, v) (by simp) kv2 hkv2)]
    | cons kv2 rest2 =>
      rw [serMembers_cons (k, v) (kv2 :: rest2) (by simp)]
      rw [show (serField (k, v) ++ [44, 32] ++ serMembers (kv2 :: rest2)) ++ 125 :: tl
          = serField (k, v) ++ (44 :: 32 :: (serMembers (kv2 :: rest2) ++ 125 :: tl))
        by simp]
      rw [serField_append]
      rw [parseMembers_red]
      rw [parseStringUnits_escBody k _ hk]
      show (match parseVal (f + 1)
          (32 :: (serScalar v ++ 44 :: 32 :: (serMembers (kv2 :: rest2) ++ 125 :: tl))) with
        | none => none
        | some (v2, r3) =>
          match skipWs r3 with
          | 44 :: r4 => parseMembers (f + 1) (skipWs r4)
              (dictInsert acc (combineSurrogates (unitsOf k)) v2)
          | 125 :: r4 => some (dictInsert acc (combineSurrogates (unitsOf k)) v2, r4)
          | _ => none) = some (acc ++ ((k, v) :: kv2 :: rest2), tl)
      rw [parseVal_ws f 32 _ rfl,
        parseVal_serScalar f v hv 44 (32 :: (serMembers (kv2 :: rest2) ++ 125 :: tl))
          (Or.inl rfl)]
      show parseMembers (f + 1) (skipWs (32 :: (serMembers (kv2 :: rest2) ++ 125 :: tl)))
          (dictInsert acc (combineSurrogates (unitsOf k)) v)
        = some (acc ++ ((k, v) :: kv2 :: rest2), tl)
      rw [combineSurrogates_unitsOf k hk]
      rw [dictInsert_append acc k v (fun kv0 hkv0 => hdisj (k, v) (by simp) kv0 hkv0)]
      rw [skipWs_cons_ws 32 _ rfl]
      have hsk34 : skipWs (serMembers (kv2 :: rest2) ++ 125 :: tl)
          = serMembers (kv2 :: rest2) ++ 125 :: tl := by
        obtain ⟨k2, v2⟩ := kv2
        cases rest2 with
        | nil =>
          rw [show serMembers [(k2, v2)] = serField (k2, v2) from rfl, serField_append]
          exact skipWs_cons_nws 34 _ rfl
        | cons a b =>
          rw [serMembers_cons (k2, v2) (a :: b) (by simp),
            show (serField (k2, v2) ++ [44, 32] ++ serMembers (a :: b)) ++ 125 :: tl
              = serField (k2, v2) ++ (44 :: 32 :: (serMembers (a :: b) ++ 125 :: tl))
            by simp,
            serField_append]
          exact skipWs_cons_nws 34 _ rfl
      rw [hsk34]
      rw [show acc ++ ((k, v) :: kv2 :: rest2) = (acc ++ [(k, v)]) ++ (kv2 :: rest2)
        by simp]
      apply ih f (acc ++ [(k, v)]) tl (by simp)
      · simp only [List.length_cons] at hlen ⊢
        omega
      · exact fun kv0 hkv0 => hgood kv0 (List.mem_cons_of_mem _ hkv0)
      · intro kv0 hkv0 kv1 hkv1
        rcases List.mem_append.mp hkv1 with hacc | hkv
        · exact hdisj kv0 (List.mem_cons_of_mem _ hkv0) kv1 hacc
        · have : kv1 = (k, v) := by simpa using hkv
          subst this
          exact (List.pairwise_cons.mp hpw).1 kv0 hkv0
      · exact (List.pairwise_cons.mp hpw).2

theorem serField_length (kv : List Nat × JVal) : 2 ≤ (serField kv).length := by
  obtain ⟨k, v⟩ := kv
  simp [serField, serStr]
  omega

theorem serMembers_length_ge : ∀ fields : List (List Nat × JVal),
    fields.length ≤ (serMembers fields).length := by
  intro fields
  induction fields with
  | nil => simp [serMembers]
  | cons kv rest ih =>
    cases rest with
    | nil =>
      have := serField_length kv
      show 1 ≤ (serField kv).length
      omega
    | cons a b =>
      rw [serMembers_cons kv (a :: b) (by simp)]
      simp only [List.length_cons, List.length_append] at ih ⊢
      omega

theorem skipWs_serMembers (fields : List (List Nat × JVal)) (hne : fields ≠ [])
    (X : List Nat) :
    skipWs (serMembers fields ++ X) = serMembers fields ++ X := by
  obtain ⟨⟨k, v⟩, rest, rfl⟩ := List.exists_cons_of_ne_nil hne
  cases rest with
  | nil =>
    rw [show serMembers [(k, v)] = serField (k, v) from rfl, serField_append]
    exact skipWs_cons_nws 34 _ rfl
  | cons a b =>
    rw [serMembers_cons (k, v) (a :: b) (by simp),
      show (serField (k, v) ++ [44, 32] ++ serMembers (a :: b)) ++ X
        = serField (k, v) ++ (44 :: 32 :: (serMembers (a :: b) ++ X)) by simp,
      serField_append]
    exact skipWs_cons_nws 34 _ rfl

theorem json_loads_serObjFields (fields : List (List Nat × JVal))
    (hne : fields ≠ [])
    (hgood : ∀ kv ∈ fields, ScalarCps kv.1 ∧ GoodVal kv.2)
    (hpw : List.Pairwise (fun a b => a.1 ≠ b.1) fields) :
    json_loads (serObjFields fields) = some (.jobj fields) := by
  have hlen : fields.length + 1 ≤ (serObjFields fields).length := by
    show fields.length + 1 ≤ (123 :: (serMembers fields ++ [125])).length
    simp only [List.length_cons, List.length_append]
    have := serMembers_length_ge fields
    omega
  obtain ⟨f, hLf⟩ : ∃ f, (serObjFields fields).length = f + 1 :=
    ⟨(serObjFields fields).length - 1, by omega⟩
  have hbranch : (match skipWs (serMembers fields ++ [125]) with
      | 125 :: r => some (JVal.jobj [], r)
      | other => (parseMembers (serObjFields fields).length other []).map
          fun (p : List (List Nat × JVal) × List Nat) => (JVal.jobj p.1, p.2))
      = (parseMembers (serObjFields fields).length (serMembers fields ++ [125]) []).map
          fun (p : List (List Nat × JVal) × List Nat) => (JVal.jobj p.1, p.2) := by
    rw [skipWs_serMembers fields hne [125]]
    obtain ⟨⟨k, v⟩, rest, rfl⟩ := List.exists_cons_of_ne_nil hne
    cases rest with
    | nil =>
      rw [show serMembers [(k, v)] = serField (k, v) from rfl, serField_append]
    | cons a b =>
      rw [serMembers_cons (k, v) (a :: b) (by simp),
        show (serField (k, v) ++ [44, 32] ++ serMembers (a :: b)) ++ [125]
          = serField (k, v) ++ (44 :: 32 :: (serMembers (a :: b) ++ [125])) by simp,
        serField_append]
  rw [hLf] at hbranch
  rw [parseMembers_ser fields f [] [] hne (by omega) hgood (by simp) hpw] at hbranch
  show (match (match skipWs (serMembers fields ++ [125]) with
      | 125 :: r => some (JVal.jobj [], r)
      | other => (parseMembers (serObjFields fields).length other []).map
          fun (p : List (List Nat × JVal) × List Nat) => (JVal.jobj p.1, p.2)) with
    | some (v, rest) => if skipWs rest = [] then some v else none
    | none => none) = some (JVal.jobj fields)
  rw [hLf, hbranch]
  rfl

theorem escBody_ascii (s : List Nat) : ∀ x ∈ escBody s, x < 128 := by
  induction s with
  | nil => intro x hx; simp [escBody] at hx
  | cons c s ih =>
    intro x hx
    rw [escBody_cons] at hx
    rcases List.mem_append.mp hx with h | h
    · exact jsonEscapeChar_ascii c x h
    · exact ih x h

theorem serStr_ascii (s : List Nat) : ∀ x ∈ serStr s, x < 128 := by
  intro x hx
  rw [show serStr s = 34 :: (escBody s ++ [34]) by simp [serStr]] at hx
  rcases List.mem_cons.mp hx with h | h
  · omega
  rcases List.mem_append.mp h with h2 | h2
  · exact escBody_ascii s x h2
  · simp at h2; omega

theorem serInt_ascii (n : Int) : ∀ x ∈ serInt n, x < 128 := by
  intro x hx
  have hdig : ∀ y ∈ natDigitCps n.natAbs, y < 128 := by
    intro y hy
    have := natDigitCps_digits n.natAbs y hy
    simp [isDigitByte] at this
    omega
  unfold serInt at hx
  split_ifs at hx
  · rcases List.mem_cons.mp hx with h | h
    · omega
    · exact hdig x h
  · exact hdig x hx

theorem serScalar_ascii (v : JVal) (hv : GoodVal v) :
    ∀ x ∈ serScalar v, x < 128 := by
  cases v with
  | jstr s => exact serStr_ascii s
  | jint n => exact serInt_ascii n
  | jnull => exact hv.elim
  | jbool b => exact hv.elim
  | jnum raw => exact hv.elim
  | jarr xs => exact hv.elim
  | jobj fs => exact hv.elim

theorem serField_ascii (kv : List Nat × JVal) (hv : GoodVal kv.2) :
    ∀ x ∈ serField kv, x < 128 := by
  obtain ⟨k, v⟩ := kv
  intro x hx
  rw [show serField (k, v) = serStr k ++ ([58, 32] ++ serScalar v) by
    simp [serField]] at hx
  rcases List.mem_append.mp hx with h | h
  · exact serStr_ascii k x h
  rcases List.mem_append.mp h with h2 | h2
  · simp at h2; omega
  · exact serScalar_ascii v hv x h2

theorem serMembers_ascii : ∀ fields : List (List Nat × JVal),
    (∀ kv ∈ fields, GoodVal kv.2) → ∀ x ∈ serMembers fields, x < 128 := by
  intro fields
  induction fields with
  | nil => intro _ x hx; simp [serMembers] at hx
  | cons kv rest ih =>
    intro hgood x hx
    cases rest with
    | nil => exact serField_ascii kv (hgood kv (by simp)) x hx
    | cons a b =>
      rw [serMembers_cons kv (a :: b) (by simp)] at hx
      rcases List.mem_append.mp hx with h | h
      · rcases List.mem_append.mp h with h2 | h2
        · exact serField_ascii kv (hgood kv (by simp)) x h2
        · simp at h2; omega
      · exact ih (fun kv2 h2 => hgood kv2 (List.mem_cons_of_mem _ h2)) x h

theorem serObjFields_ascii (fields : List (List Nat × JVal))
    (hgood : ∀ kv ∈ fields, GoodVal kv.2) :
    ∀ x ∈ serObjFields fields, x < 128 := by
  intro x hx
  rcases List.mem_cons.mp hx with h | h
  · omega
  rcases List.mem_append.mp h with h2 | h2
  · exact serMembers_ascii fields hgood x h2
  · simp at h2; omega

theorem wordBytes_lt (w : Nat) : ∀ x ∈ wordBytes w, x < 256 := by
  intro x hx
  simp [wordBytes] at hx
  rcases hx with h | h | h | h <;> omega

theorem shaStateBytes_lt (s : Sha256State) : ∀ x ∈ shaStateBytes s, x < 256 := by
  intro x hx
  simp only [shaStateBytes, List.mem_append] at hx
  rcases hx with ((((((h | h) | h) | h) | h) | h) | h) | h <;>
    exact wordBytes_lt _ x h

theorem sha256_lt (msg : List Nat) : ∀ x ∈ sha256 msg, x < 256 := by
  intro x hx
  have hx2 : x ∈ shaStateBytes
      ((wordsToBlocks (shaPad msg).length (bytesToWords (shaPad msg))).foldl
        shaCompress shaInit) := hx
  exact shaStateBytes_lt _ x hx2

theorem hmacSha256_lt (key msg : List Nat) : ∀ x ∈ hmacSha256 key msg, x < 256 := by
  intro x hx
  exact sha256_lt _ x hx

theorem bytesToHexCps_ascii : ∀ bs : List Nat, (∀ b ∈ bs, b < 256) →
    ∀ x ∈ bytesToHexCps bs, x < 128 := by
  intro bs
  induction bs with
  | nil => intro _ x hx; simp [bytesToHexCps] at hx
  | cons b bs ih =>
    intro hb x hx
    have hb256 : b < 256 := hb b (by simp)
    rw [show bytesToHexCps (b :: bs)
        = hexDigit (b / 16) :: hexDigit (b % 16) :: bytesToHexCps bs from rfl] at hx
    rcases List.mem_cons.mp hx with h | h
    · rw [h]; exact hexDigit_lt _ (by omega)
    rcases List.mem_cons.mp h with h2 | h2
    · rw [h2]; exact hexDigit_lt _ (by omega)
    · exact ih (fun y hy => hb y (by simp [hy])) x h2

theorem signatureHex_scalar (secret : List Nat)
    (fields : List (List Nat × JVal)) : ScalarCps (signatureHex secret fields) := by
  intro x hx
  have h128 : x < 128 :=
    bytesToHexCps_ascii _ (hmacSha256_lt _ _) x hx
  exact ⟨by omega, by omega⟩

theorem sigMatches_self (secret : List Nat) (fields : List (List Nat × JVal)) :
    sigMatches (some (.jstr (signatureHex secret fields)))
      (signatureHex secret fields) = true := by
  show (signatureHex secret fields == signatureHex secret fields) = true
  exact beq_self_eq_true _

theorem pyTruthyJ_sigHex (secret : List Nat) (fields : List (List Nat × JVal)) :
    pyTruthyJ (some (.jstr (signatureHex secret fields))) = true := rfl

theorem decode_b64_serObj (secret : List Nat)
    (fields0 fields : List (List Nat × JVal)) (ts now : Int)
    (hne : fields0 ≠ [])
    (hgood : ∀ kv ∈ fields0, ScalarCps kv.1 ∧ GoodVal kv.2)
    (hpw : List.Pairwise (fun a b => a.1 ≠ b.1) fields0)
    (hsig : dictGet fields0 kSig = some (.jstr (signatureHex secret fields)))
    (hrem : dictRemove fields0 kSig = fields)
    (hts : tsInt? (dictGet fields kTs) = some ts)
    (httl : (now - ts).natAbs ≤ TTL_SECONDS) :
    decode secret (b64encode (utf8Encode (serObjFields fields0))) now
      = .ok fields := by
  have hascii : ∀ x ∈ serObjFields fields0, x < 128 :=
    serObjFields_ascii fields0 (fun kv h => (hgood kv h).2)
  have hb64 : b64decode (b64encode (serObjFields fields0))
      = some (serObjFields fields0) :=
    b64_roundtrip _ (fun x hx => lt_trans (hascii x hx) (by norm_num))
  have hTTL : ¬ ((now - ts).natAbs > TTL_SECONDS) := by omega
  simp only [decode, utf8Encode_ascii _ hascii, hb64,
    utf8Decode_ascii _ hascii, json_loads_serObjFields fields0 hne hgood hpw,
    hsig, hrem, pyTruthyJ_sigHex, sigMatches_self, Bool.not_true, if_false,
    Bool.false_eq_true, hts, hTTL]

theorem kTenant_scalar : ScalarCps kTenant := by
  unfold ScalarCps kTenant strCps
  decide

theorem kEntity_scalar : ScalarCps kEntity := by
  unfold ScalarCps kEntity strCps
  decide

theorem kRedirect_scalar : ScalarCps kRedirect := by
  unfold ScalarCps kRedirect strCps
  decide

theorem kTs_scalar : ScalarCps kTs := by
  unfold ScalarCps kTs strCps
  decide

theorem kNext_scalar : ScalarCps kNext := by
  unfold ScalarCps kNext strCps
  decide

theorem kSig_scalar : ScalarCps kSig := by
  unfold ScalarCps kSig strCps
  decide

/-- C6: decoding a token produced by `encode`, at any time within the
600-second TTL and with an unchanged server secret, succeeds and
returns a payload whose `tenant_id`, `entity_id` and `redirect_uri`
equal the encoded originals. -/
theorem c6_round_trip (secret t e r : List Nat) (next : Option (List Nat))
    (ts now : Int)
    (ht : ScalarCps t) (he : ScalarCps e) (hr : ScalarCps r)
    (hnext : ∀ nx, next = some nx → ScalarCps nx)
    (httl : (now - ts).natAbs ≤ TTL_SECONDS) :
    ∃ fields, decode secret (encode secret t e r next ts) now = .ok fields ∧
      dictGet fields kTenant = some (.jstr t) ∧
      dictGet fields kEntity = some (.jstr e) ∧
      dictGet fields kRedirect = some (.jstr r) := by
  cases next with
  | none =>
    refine ⟨[(kTenant, .jstr t), (kEntity, .jstr e), (kRedirect, .jstr r),
      (kTs, .jint ts)], ?_, rfl, rfl, rfl⟩
    exact decode_b64_serObj secret _ _ ts now (by simp)
      (by
        intro kv hkv
        simp only [List.mem_append, List.mem_cons, List.not_mem_nil,
          or_false] at hkv
        rcases hkv with (rfl | rfl | rfl | rfl) | rfl
        · exact ⟨kTenant_scalar, ht⟩
        · exact ⟨kEntity_scalar, he⟩
        · exact ⟨kRedirect_scalar, hr⟩
        · exact ⟨kTs_scalar, trivial⟩
        · exact ⟨kSig_scalar, signatureHex_scalar secret _⟩)
      (by
          apply List.pairwise_map.mp
          simp only [List.map_append, List.map_cons, List.map_nil,
            List.cons_append, List.nil_append]
          decide)
      rfl rfl rfl httl
  | some nx =>
    by_cases hnx : nx = []
    · subst hnx
      have henc : encode secret t e r (some []) ts
          = b64encode (utf8Encode (serObjFields
            ([(kTenant, .jstr t), (kEntity, .jstr e), (kRedirect, .jstr r),
              (kTs, .jint ts)] ++
              [(kSig, .jstr (signatureHex secret
                [(kTenant, .jstr t), (kEntity, .jstr e), (kRedirect, .jstr r),
                 (kTs, .jint ts)]))]))) := rfl
      refine ⟨[(kTenant, .jstr t), (kEntity, .jstr e), (kRedirect, .jstr r),
        (kTs, .jint ts)], ?_, rfl, rfl, rfl⟩
      rw [henc]
      exact decode_b64_serObj secret _ _ ts now (by simp)
        (by
          intro kv hkv
          simp only [List.mem_append, List.mem_cons, List.not_mem_nil,
            or_false] at hkv
          rcases hkv with (rfl | rfl | rfl | rfl) | rfl
          · exact ⟨kTenant_scalar, ht⟩
          · exact ⟨kEntity_scalar, he⟩
          · exact ⟨kRedirect_scalar, hr⟩
          · exact ⟨kTs_scalar, trivial⟩
          · exact ⟨kSig_scalar, signatureHex_scalar secret _⟩)
        (by
          apply List.pairwise_map.mp
          simp only [List.map_append, List.map_cons, List.map_nil,
            List.cons_append, List.nil_append]
          decide)
        rfl rfl rfl httl
    · have hs : ScalarCps nx := hnext nx rfl
      have henc : encode secret t e r (some nx) ts
          = b64encode (utf8Encode (serObjFields
            ([(kTenant, .jstr t), (kEntity, .jstr e), (kRedirect, .jstr r),
              (kTs, .jint ts), (kNext, .jstr nx)] ++
              [(kSig, .jstr (signatureHex secret
                [(kTenant, .jstr t), (kEntity, .jstr e), (kRedirect, .jstr r),
                 (kTs, .jint ts), (kNext, .jstr nx)]))]))) := by
        simp only [encode]
        rw [if_pos hnx]
        rfl
      refine ⟨[(kTenant, .jstr t), (kEntity, .jstr e), (kRedirect, .jstr r),
        (kTs, .jint ts), (kNext, .jstr nx)], ?_, rfl, rfl, rfl⟩
      rw [henc]
      exact decode_b64_serObj secret _ _ ts now (by simp)
        (by
          intro kv hkv
          simp only [List.mem_append, List.mem_cons, List.not_mem_nil,
            or_false] at hkv
          rcases hkv with (rfl | rfl | rfl | rfl | rfl) | rfl
          · exact ⟨kTenant_scalar, ht⟩
          · exact ⟨kEntity_scalar, he⟩
          · exact ⟨kRedirect_scalar, hr⟩
          · exact ⟨kTs_scalar, trivial⟩
          · exact ⟨kNext_scalar, hs⟩
          · exact ⟨kSig_scalar, signatureHex_scalar secret _⟩)
        (by
          apply List.pairwise_map.mp
          simp only [List.map_append, List.map_cons, List.map_nil,
            List.cons_append, List.nil_append]
          decide)
        rfl rfl rfl httl

theorem sigMatches_eq (sig? : Option JVal) (hex : List Nat)
    (h : sigMatches sig? hex = true) : sig? = some (.jstr hex) := by
  cases sig? with
  | none => exact absurd h (by simp [sigMatches])
  | some v =>
    cases v with
    | jstr s =>
      have : s = hex := by
        have h2 : (s == hex) = true := h
        exact eq_of_beq h2
      rw [this]
    | jnull => exact absurd h (by simp [sigMatches])
    | jbool b => exact absurd h (by simp [sigMatches])
    | jint n => exact absurd h (by simp [sigMatches])
    | jnum raw => exact absurd h (by simp [sigMatches])
    | jarr xs => exact absurd h (by simp [sigMatches])
    | jobj fs => exact absurd h (by simp [sigMatches])

/-- C2 (amended): every token `decode` accepts decodes to a JSON object
whose `sig` member equals the recomputed HMAC-SHA256 hex digest over
the `sig`-stripped payload and whose `ts` is an integer within the TTL
window.  The digest signs only `tenant_id`, `entity_id` and `ts`, so
this check does not authenticate the remaining payload bytes. -/
theorem c2_decode_ok_inversion (secret raw : List Nat) (now : Int)
    (fields : List (List Nat × JVal))
    (h : decode secret raw now = .ok fields) :
    ∃ bytes cps fields0 ts,
      b64decode raw = some bytes ∧
      utf8Decode bytes = some cps ∧
      json_loads cps = some (.jobj fields0) ∧
      fields = dictRemove fields0 kSig ∧
      dictGet fields0 kSig = some (.jstr (signatureHex secret fields)) ∧
      tsInt? (dictGet fields kTs) = some ts ∧
      (now - ts).natAbs ≤ TTL_SECONDS := by
  unfold decode at h
  cases hb : b64decode raw with
  | none => simp only [hb] at h; exact Except.noConfusion h
  | some bytes =>
  simp only [hb] at h
  cases hu : utf8Decode bytes with
  | none => simp only [hu] at h; exact Except.noConfusion h
  | some cps =>
  simp only [hu] at h
  cases hj : json_loads cps with
  | none => simp only [hj] at h; exact Except.noConfusion h
  | some v =>
  simp only [hj] at h
  cases v with
  | jnull => exact Except.noConfusion h
  | jbool b => exact Except.noConfusion h
  | jint n => exact Except.noConfusion h
  | jnum raw2 => exact Except.noConfusion h
  | jstr s => exact Except.noConfusion h
  | jarr xs => exact Except.noConfusion h
  | jobj fields0 =>
  simp only [] at h
  by_cases htr : (!pyTruthyJ (dictGet fields0 kSig)) = true
  · rw [if_pos htr] at h
    exact Except.noConfusion h
  rw [if_neg htr] at h
  by_cases hsm : (!sigMatches (dictGet fields0 kSig)
      (signatureHex secret (dictRemove fields0 kSig))) = true
  · rw [if_pos hsm] at h
    exact Except.noConfusion h
  rw [if_neg hsm] at h
  cases hts : tsInt? (dictGet (dictRemove fields0 kSig) kTs) with
  | none => simp only [hts] at h; exact Except.noConfusion h
  | some ts =>
  simp only [hts] at h
  by_cases httl : (now - ts).natAbs > TTL_SECONDS
  · rw [if_pos httl] at h
    exact Except.noConfusion h
  rw [if_neg httl] at h
  have hfe : fields = dictRemove fields0 kSig := by
    injection h with h2
    exact h2.symm
  have hsm2 : sigMatches (dictGet fields0 kSig)
      (signatureHex secret (dictRemove fields0 kSig)) = true := by
    simpa using hsm
  refine ⟨bytes, cps, fields0, ts, rfl, hu, hj, hfe, ?_, ?_, by omega⟩
  · rw [hfe]
    exact sigMatches_eq _ _ hsm2
  · rw [hfe]
    exact hts

/-- C6 witness: a concrete round trip through `encode` and `decode`. -/
theorem c6_round_trip_witness :
    ∃ fields, decode (strCps "k") (encode (strCps "k") (strCps "t") (strCps "e")
        (strCps "r") none 0) 0 = .ok fields ∧
      dictGet fields kTenant = some (.jstr (strCps "t")) ∧
      dictGet fields kEntity = some (.jstr (strCps "e")) ∧
      dictGet fields kRedirect = some (.jstr (strCps "r")) :=
  c6_round_trip (strCps "k") (strCps "t") (strCps "e") (strCps "r") none 0 0
    (by unfold ScalarCps strCps; decide)
    (by unfold ScalarCps strCps; decide)
    (by unfold ScalarCps strCps; decide)
    (fun nx h => Option.noConfusion h)
    (by decide)

set_option maxRecDepth 100000 in
set_option maxHeartbeats 4000000 in
/-- C2 counterexample: changing a single byte of an encoded token — the
base64 character at index 75, which flips one byte of the unsigned
`redirect_uri` from `"aaa"` to `"aab"` — yields a different token that
`decode` still accepts within the TTL, instead of failing with
`StateInvalid`. -/
theorem c2_counterexample :
    (encode (strCps "k") (strCps "t") (strCps "e") (strCps "aaa") none 0).set 75 105
      ≠ encode (strCps "k") (strCps "t") (strCps "e") (strCps "aaa") none 0 ∧
    decode (strCps "k")
      ((encode (strCps "k") (strCps "t") (strCps "e") (strCps "aaa") none 0).set 75 105) 0
      = .ok [(kTenant, .jstr (strCps "t")), (kEntity, .jstr (strCps "e")),
          (kRedirect, .jstr (strCps "aab")), (kTs, .jint 0)] := by
  constructor
  · decide
  · rfl

set_option maxRecDepth 100000 in
set_option maxHeartbeats 4000000 in
/-- C2 (amended) witness: the inversion applied to a concrete accepted
token. -/
theorem c2_decode_ok_inversion_witness :
    ∃ bytes cps fields0 ts,
      b64decode (encode (strCps "k") (strCps "t") (strCps "e") (strCps "r") none 0)
        = some bytes ∧
      utf8Decode bytes = some cps ∧
      json_loads cps = some (.jobj fields0) ∧
      [(kTenant, .jstr (strCps "t")), (kEntity, .jstr (strCps "e")),
        (kRedirect, .jstr (strCps "r")), (kTs, .jint 0)]
        = dictRemove fields0 kSig ∧
      dictGet fields0 kSig = some (.jstr (signatureHex (strCps "k")
        [(kTenant, .jstr (strCps "t")), (kEntity, .jstr (strCps "e")),
         (kRedirect, .jstr (strCps "r")), (kTs, .jint 0)])) ∧
      tsInt? (dictGet [(kTenant, .jstr (strCps "t")), (kEntity, .jstr (strCps "e")),
        (kRedirect, .jstr (strCps "r")), (kTs, .jint 0)] kTs) = some ts ∧
      ((0 : Int) - ts).natAbs ≤ TTL_SECONDS :=
  c2_decode_ok_inversion (strCps "k")
    (encode (strCps "k") (strCps "t") (strCps "e") (strCps "r") none 0) 0
    [(kTenant, .jstr (strCps "t")), (kEntity, .jstr (strCps "e")),
     (kRedirect, .jstr (strCps "r")), (kTs, .jint 0)]
    (by rfl)

end Saas
